import Mathlib

/-!
Verification development for the DevopsMate telemetry agent's pipeline core:
the multi-stream buffer with disk spillover (`agent/buffer.py`) and the
exporter / forwarder with its circuit breaker (`agent/exporter.py`).

The Python classes are shallowly embedded as Lean structures and pure
functions.  Machine-level concerns that do not affect the verified
properties are abstracted as follows and noted at each definition:

* payloads are opaque (`Payload := Nat`);
* wall-clock instants are natural numbers (seconds);
* the outcome of environment interactions (directory creation and the
  disk-budget check inside `_spill_to_disk`, and each HTTP attempt inside
  `_send_with_retry`) is supplied explicitly as an oracle argument, so
  every execution of the Python code corresponds to some choice of oracle;
* `asyncio` locking is not modelled: every public operation of
  `DataBuffer` runs under one mutex in the source, so operations are
  embedded as atomic state transformers.
-/

/-- Payloads are opaque structured records in the source; the buffer and
exporter never inspect them, so an opaque numeric identifier suffices. -/
abbrev Payload := Nat

/-- `BufferedData` from `agent/buffer.py`: one buffered item.  The
`timestamp` field of the source is never consulted by any modelled
operation and is omitted. -/
structure BufferedData where
  data_type : String
  payload : Payload
  attempts : Nat
deriving DecidableEq

/-- One on-disk spill file.  `name` models the unique file name
(`{kind}_..._{timestamp}.json.gz`); `kind` models the data-type prefix that
`recover_from_disk` parses back out of the name; `mtime` is the
modification time used for LIFO ordering; `payloads` is the JSON vector
stored in the file (attempt counters are not preserved across spill). -/
structure SpillFile where
  name : Nat
  kind : String
  mtime : Nat
  payloads : List Payload
deriving DecidableEq

/-- The state of `DataBuffer` from `agent/buffer.py`: the four per-kind
deques (`_buffers`), the spill directory contents (`disk`), the
configuration (`max_size`), the `_stats` counters, and a `clock` that
models `datetime.utcnow()` used to stamp new spill files.
`spill_attempts` is a ghost counter, not present in the source, that
counts invocations of `_spill_to_disk`; it never influences behaviour. -/
structure DataBuffer where
  metrics : List BufferedData := []
  logs : List BufferedData := []
  traces : List BufferedData := []
  topology : List BufferedData := []
  disk : List SpillFile := []
  max_size : Nat := 10000
  clock : Nat := 0
  total_added : Nat := 0
  total_flushed : Nat := 0
  spill_count : Nat := 0
  drop_count : Nat := 0
  spill_attempts : Nat := 0
deriving DecidableEq

/-- The data types for which `DataBuffer.__init__` creates a deque. -/
abbrev knownType (dt : String) : Prop :=
  dt = "metrics" ∨ dt = "logs" ∨ dt = "traces" ∨ dt = "topology"

/-- `collections.deque(maxlen=m).append(x)`: appends at the right; when the
deque already holds `maxlen` items the leftmost item is silently evicted. -/
def dequeAppend (maxlen : Nat) (xs : List α) (x : α) : List α :=
  if maxlen = 0 then []
  else if xs.length = maxlen then xs.tail ++ [x]
  else xs ++ [x]

/-- `collections.deque(maxlen=m).appendleft(x)`: appends at the left; when
the deque already holds `maxlen` items the rightmost item is silently
evicted. -/
def dequeAppendLeft (maxlen : Nat) (xs : List α) (x : α) : List α :=
  if maxlen = 0 then []
  else if xs.length = maxlen then x :: xs.dropLast
  else x :: xs

namespace DataBuffer

/-- `self._buffers[data_type]` (the empty list for unknown types, which the
source never reaches because callers check membership first). -/
def bufOf (s : DataBuffer) (dt : String) : List BufferedData :=
  if dt = "metrics" then s.metrics
  else if dt = "logs" then s.logs
  else if dt = "traces" then s.traces
  else if dt = "topology" then s.topology
  else []

/-- Replace the deque of one data type (mutation of `self._buffers[dt]`). -/
def setBuf (s : DataBuffer) (dt : String) (q : List BufferedData) : DataBuffer :=
  if dt = "metrics" then { s with metrics := q }
  else if dt = "logs" then { s with logs := q }
  else if dt = "traces" then { s with traces := q }
  else if dt = "topology" then { s with topology := q }
  else s

/-- The `maxlen` each deque was constructed with in `__init__`:
`max_size` for metrics/logs/traces and `1000` for topology. -/
def capOf (s : DataBuffer) (dt : String) : Nat :=
  if dt = "topology" then 1000 else s.max_size

/-- The state `__init__` produces: empty deques and zeroed stats.  `disk`
and `clock` parametrise over pre-existing spill-directory contents and the
current time. -/
def initState (M : Nat) (disk : List SpillFile) (clock : Nat) : DataBuffer :=
  { metrics := [], logs := [], traces := [], topology := [], disk := disk,
    max_size := M, clock := clock, total_added := 0, total_flushed := 0,
    spill_count := 0, drop_count := 0, spill_attempts := 0 }

/-- `_spill_to_disk(data_type)`.  The two points where the source can fail
for environmental reasons — the `mkdir`/`stat` calls raising (the final
`except` clauses) and the disk-budget check after cleanup still being over
budget — are modelled by two oracle booleans consumed from `env`, in
source order.  A successful spill moves the oldest
`min(len(buffer) // 2, 1000)` items of the deque into a fresh compressed
file (`int(len * 0.5)` with the default `flush_to_disk_mem_ratio = 0.5`);
spilling zero items returns `True` before the budget check.  The
old-file cleanup loop only deletes files and is subsumed by the oracle's
budget verdict; no verified claim depends on it. -/
def spillMark (s : DataBuffer) : DataBuffer :=
  { s with spill_attempts := s.spill_attempts + 1 }

/-- The committed effect of a successful `_spill_to_disk` of `n` items:
write the oldest `n` payloads of the deque to a fresh file stamped with
the current time, pop them from the deque, and count the spill. -/
def spillWrite (s : DataBuffer) (dt : String) (n : Nat) : DataBuffer :=
  let buf := s.bufOf dt
  let file : SpillFile :=
    { name := s.clock, kind := dt, mtime := s.clock,
      payloads := (buf.take n).map (·.payload) }
  let s1 := s.setBuf dt (buf.drop n)
  { s1 with disk := s1.disk ++ [file],
            spill_count := s1.spill_count + 1,
            clock := s1.clock + 1 }

def spillToDisk (s : DataBuffer) (dt : String) (env : List Bool) :
    DataBuffer × Bool × List Bool :=
  let s := spillMark s
  let mkdirOk := env.headD true
  let env1 := env.tail
  if mkdirOk then
    let n := min ((s.bufOf dt).length / 2) 1000
    if n = 0 then (s, true, env1)
    else
      let spaceOk := env1.headD true
      let env2 := env1.tail
      if spaceOk then (s.spillWrite dt n, true, env2)
      else (s, false, env2)
  else (s, false, env1)

/-- The committed effect of a successful `add`: append the fresh item to
the deque (the deque's `maxlen` silently evicting the oldest item when it
is at capacity) and advance `total_added`. -/
def addApply (s : DataBuffer) (dt : String) (it : BufferedData) : DataBuffer :=
  let s2 := s.setBuf dt (dequeAppend (s.capOf dt) (s.bufOf dt) it)
  { s2 with total_added := s2.total_added + 1 }

/-- `drop_count += 1`, the accounting for an `add` whose spill failed. -/
def dropMark (s : DataBuffer) : DataBuffer :=
  { s with drop_count := s.drop_count + 1 }

/-- `add(data_type, data)`: reject unknown types; when the deque already
holds at least `max_size` items try one spill, dropping the new payload
(and counting it) when the spill fails; otherwise append a fresh item with
`attempts = 0` and count it as added. -/
def add (s : DataBuffer) (dt : String) (p : Payload) (env : List Bool) :
    DataBuffer × Bool × List Bool :=
  if knownType dt then
    let newItem : BufferedData := { data_type := dt, payload := p, attempts := 0 }
    if s.max_size ≤ (s.bufOf dt).length then
      let r := s.spillToDisk dt env
      if r.2.1 then (r.1.addApply dt newItem, true, r.2.2)
      else (r.1.dropMark, false, r.2.2)
    else (s.addApply dt newItem, true, env)
  else (s, false, env)

/-- `total_flushed += k`, the accounting `get_batch` performs. -/
def flushCount (s : DataBuffer) (k : Nat) : DataBuffer :=
  { s with total_flushed := s.total_flushed + k }

/-- `get_batch(data_type, max_items)`: pop up to `max_items` items from the
head and advance `total_flushed` by the batch length. -/
def get_batch (s : DataBuffer) (dt : String) (max_items : Nat) :
    DataBuffer × List BufferedData :=
  if knownType dt then
    let buf := s.bufOf dt
    let batch := buf.take max_items
    ((s.setBuf dt (buf.drop max_items)).flushCount batch.length, batch)
  else (s, [])

/-- One iteration of the `return_failed` loop body: increment the item's
`attempts`; re-queue it at the head of its kind's deque only while the new
count stays below 5 (and only when the kind has a deque). -/
def returnFailedOne (s : DataBuffer) (item : BufferedData) : DataBuffer :=
  let item' := { item with attempts := item.attempts + 1 }
  if item'.attempts < 5 then
    if knownType item.data_type then
      s.setBuf item.data_type
        (dequeAppendLeft (s.capOf item.data_type) (s.bufOf item.data_type) item')
    else s
  else s

/-- `return_failed(items)`: the loop over the batch, in list order. -/
def return_failed (s : DataBuffer) (items : List BufferedData) : DataBuffer :=
  items.foldl returnFailedOne s

/-- The inner loop of `recover_from_disk` over one file's payload vector:
feed each payload through `add`; stop at the first rejection.  Returns the
new state, the number of payloads accepted, whether the whole vector was
accepted, and the remaining oracle. -/
def addAll (s : DataBuffer) (dt : String) :
    List Payload → List Bool → DataBuffer × Nat × Bool × List Bool
  | [], env => (s, 0, true, env)
  | p :: rest, env =>
    let r := s.add dt p env
    if r.2.1 then
      let r2 := addAll r.1 dt rest r.2.2
      (r2.1, r2.2.1 + 1, r2.2.2)
    else (r.1, 0, false, r.2.2)

/-- Stable insertion of a file into a list kept in decreasing-`mtime`
order; together with `sortByMtimeDesc` this models
`sorted(files, key=mtime, reverse=True)`. -/
def insertByMtimeDesc (f : SpillFile) : List SpillFile → List SpillFile
  | [] => [f]
  | g :: gs => if g.mtime ≤ f.mtime ∧ g.mtime ≠ f.mtime then f :: g :: gs
               else g :: insertByMtimeDesc f gs

/-- `sorted(spill_files, key=mtime, reverse=True)`: newest first. -/
def sortByMtimeDesc : List SpillFile → List SpillFile
  | [] => []
  | f :: fs => insertByMtimeDesc f (sortByMtimeDesc fs)

/-- The file list `recover_from_disk` iterates over: the directory listing
sorted newest-first, truncated to `max_files`. -/
def recoverSnapshot (s : DataBuffer) (max_files : Nat) : List SpillFile :=
  (sortByMtimeDesc s.disk).take max_files

/-- `filepath.unlink()`: remove the named file from the directory. -/
def deleteFile (s : DataBuffer) (name : Nat) : DataBuffer :=
  { s with disk := s.disk.filter (fun g => g.name ≠ name) }

/-- The outer loop of `recover_from_disk` over the snapshot: recover one
file's payloads; on full success delete the file (by name) and continue,
otherwise return at once with the file left on disk.  Corrupt files are
not modelled: every file on disk is a readable payload vector. -/
def recoverLoop (s : DataBuffer) :
    List SpillFile → List Bool → DataBuffer × Nat
  | [], _ => (s, 0)
  | f :: rest, env =>
    let r := s.addAll f.kind f.payloads env
    if r.2.2.1 then
      let r2 := recoverLoop (r.1.deleteFile f.name) rest r.2.2.2
      (r2.1, r.2.1 + r2.2)
    else (r.1, r.2.1)

/-- `recover_from_disk(max_files)`. -/
def recover_from_disk (s : DataBuffer) (max_files : Nat) (env : List Bool) :
    DataBuffer × Nat :=
  s.recoverLoop (s.recoverSnapshot max_files) env

/-- Total number of items resident in the four in-memory deques. -/
def memCount (s : DataBuffer) : Nat :=
  s.metrics.length + s.logs.length + s.traces.length + s.topology.length

/-- Total number of payloads resident in spill files on disk. -/
def diskCount (s : DataBuffer) : Nat :=
  (s.disk.map (fun f => f.payloads.length)).sum

/-- All payloads held anywhere in the buffer system, memory then disk;
used to count duplicates. -/
def systemPayloads (s : DataBuffer) : List Payload :=
  ((s.metrics ++ s.logs ++ s.traces ++ s.topology).map (·.payload)) ++
    (s.disk.map (·.payloads)).flatten

/-- All items currently resident in the four in-memory deques. -/
def allItems (s : DataBuffer) : List BufferedData :=
  s.metrics ++ s.logs ++ s.traces ++ s.topology

end DataBuffer

/-- `item.attempts += 1`, the increment `return_failed` applies. -/
def bumpAttempts (it : BufferedData) : BufferedData :=
  { it with attempts := it.attempts + 1 }

/-- States of `DataBuffer` reachable through its public operations from a
fresh `__init__` state (arbitrary configuration, pre-existing spill files
and start time; oracle choices free). -/
inductive Reach : DataBuffer → Prop where
  | init : ∀ (M : Nat) (disk : List SpillFile) (clock : Nat),
      Reach (DataBuffer.initState M disk clock)
  | add : ∀ s dt p env, Reach s → Reach (DataBuffer.add s dt p env).1
  | get_batch : ∀ s dt k, Reach s → Reach (DataBuffer.get_batch s dt k).1
  | return_failed : ∀ s items, Reach s →
      Reach (DataBuffer.return_failed s items)
  | recover : ∀ s k env, Reach s →
      Reach (DataBuffer.recover_from_disk s k env).1

/-- States reachable from a fresh buffer (capacity at least 2, empty spill
directory) using only `add` to the metrics/logs/traces kinds with the
environment accepting every spill, and `get_batch`.  This is the fragment
of the interface on which the bookkeeping identity of claim C6 holds. -/
inductive ReachAG : DataBuffer → Prop where
  | init : ∀ (M clock : Nat), 2 ≤ M → ReachAG (DataBuffer.initState M [] clock)
  | add : ∀ s dt p, ReachAG s →
      dt = "metrics" ∨ dt = "logs" ∨ dt = "traces" →
      ReachAG (DataBuffer.add s dt p []).1
  | get_batch : ∀ s dt k, ReachAG s → ReachAG (DataBuffer.get_batch s dt k).1

/-- `CircuitState` from `agent/exporter.py`. -/
inductive CircuitState where
  | CLOSED
  | OPEN
  | HALF_OPEN
deriving DecidableEq

/-- The outcome the environment produces for one POST attempt inside
`_send_with_retry`: an HTTP response with a status code, an
`aiohttp.ClientConnectorError` (whose message may or may not indicate a
DNS failure), another `aiohttp.ClientError`, or any other exception. -/
inductive HttpResult where
  | status (code : Nat)
  | connError (isDns : Bool)
  | clientError
  | otherError
deriving DecidableEq

/-- The state of `DataExporter` from `agent/exporter.py`: circuit-breaker
state, counters, and configuration.  The HTTP session, endpoint URLs,
compression and header handling do not affect the verified properties;
each POST's outcome is drawn from an `HttpResult` oracle list instead.
`bytes_sent` is omitted (compressed sizes are not modelled).  The field
defaults are the constructor defaults of the source. -/
structure DataExporter where
  circuit_state : CircuitState := .CLOSED
  failure_count : Nat := 0
  dns_failures : Nat := 0
  circuit_open_until : Option Nat := none
  last_success_time : Option Nat := none
  requests_made : Nat := 0
  requests_failed : Nat := 0
  items_sent : Nat := 0
  circuit_breaker_opens : Nat := 0
  stat_dns_failures : Nat := 0
  batch_size : Nat := 1000
  max_retries : Nat := 3
  circuit_breaker_threshold : Nat := 5
  circuit_breaker_timeout : Nat := 300
deriving DecidableEq

namespace DataExporter

/-- `_open_circuit(reason)`: transition to `OPEN` with a fresh cooldown
deadline and count the opening, unless already `OPEN`. -/
def open_circuit (e : DataExporter) (now : Nat) : DataExporter :=
  if e.circuit_state ≠ .OPEN then
    { e with circuit_state := .OPEN,
             circuit_open_until := some (now + e.circuit_breaker_timeout),
             circuit_breaker_opens := e.circuit_breaker_opens + 1 }
  else e

/-- `_record_success()`: reset both failure counters, remember the time,
and close the circuit from `HALF_OPEN` (or, defensively, from `OPEN`). -/
def record_success (e : DataExporter) (now : Nat) : DataExporter :=
  let e := { e with failure_count := 0, dns_failures := 0,
                    last_success_time := some now }
  match e.circuit_state with
  | .HALF_OPEN => { e with circuit_state := .CLOSED }
  | .OPEN => { e with circuit_state := .CLOSED }
  | .CLOSED => e

/-- `_record_failure(error)`: count the failure; once the streak reaches
the threshold, open the circuit — except that errors whose message names
DNS are instead funnelled into the separate DNS-failure counter, which
opens the circuit only at its own threshold. -/
def record_failure (e : DataExporter) (dnsMsg : Bool) (now : Nat) : DataExporter :=
  let e := { e with failure_count := e.failure_count + 1 }
  if e.circuit_breaker_threshold ≤ e.failure_count then
    if dnsMsg then
      let e := { e with dns_failures := e.dns_failures + 1,
                        stat_dns_failures := e.stat_dns_failures + 1 }
      if e.circuit_breaker_threshold ≤ e.dns_failures then e.open_circuit now
      else e
    else e.open_circuit now
  else e

/-- The `for attempt in range(self.max_retries)` loop of
`_send_with_retry`, with the attempt budget as fuel and one `HttpResult`
consumed per POST attempt.  Returns the new state, the success flag, the
number of POST attempts performed, and the unconsumed oracle.
`requests_made` is incremented only when a response arrives (the source
increments it inside the `async with` block, which is skipped when the
request raises).  Sleeps between attempts are not modelled as elapsing
time.  An exhausted oracle behaves like an exhausted attempt budget. -/
def sendLoop (nPayloads now : Nat) :
    DataExporter → Nat → List HttpResult →
      DataExporter × Bool × Nat × List HttpResult
  | e, 0, resps => ({ e with requests_failed := e.requests_failed + 1 }, false, 0, resps)
  | e, _ + 1, [] => ({ e with requests_failed := e.requests_failed + 1 }, false, 0, [])
  | e, n + 1, r :: rs =>
    match r with
    | .status c =>
      let e1 := { e with requests_made := e.requests_made + 1 }
      if c = 200 then
        (record_success { e1 with items_sent := e1.items_sent + nPayloads } now,
         true, 1, rs)
      else if c = 429 then
        let r2 := sendLoop nPayloads now e1 n rs
        (r2.1, r2.2.1, r2.2.2.1 + 1, r2.2.2.2)
      else if 500 ≤ c then
        let r2 := sendLoop nPayloads now e1 n rs
        (r2.1, r2.2.1, r2.2.2.1 + 1, r2.2.2.2)
      else
        ({ e1 with requests_failed := e1.requests_failed + 1 }, false, 1, rs)
    | .connError isDns =>
      if isDns then
        let e1 := { e with dns_failures := e.dns_failures + 1,
                           stat_dns_failures := e.stat_dns_failures + 1 }
        if e1.circuit_breaker_threshold ≤ e1.dns_failures then
          (e1.open_circuit now, false, 1, rs)
        else
          let r2 := sendLoop nPayloads now (e1.record_failure true now) n rs
          (r2.1, r2.2.1, r2.2.2.1 + 1, r2.2.2.2)
      else
        let r2 := sendLoop nPayloads now (e.record_failure false now) n rs
        (r2.1, r2.2.1, r2.2.2.1 + 1, r2.2.2.2)
    | .clientError =>
      let r2 := sendLoop nPayloads now (e.record_failure false now) n rs
      (r2.1, r2.2.1, r2.2.2.1 + 1, r2.2.2.2)
    | .otherError =>
      let r2 := sendLoop nPayloads now (e.record_failure false now) n rs
      (r2.1, r2.2.1, r2.2.2.1 + 1, r2.2.2.2)

/-- `_send_with_retry(data_type, payloads)` with the session initialised.
The data type only selects the URL and envelope shape, which are not
modelled; `nPayloads` is `len(payloads)`. -/
def send_with_retry (e : DataExporter) (dt : String) (nPayloads now : Nat)
    (resps : List HttpResult) : DataExporter × Bool × Nat × List HttpResult :=
  let _ := dt
  sendLoop nPayloads now e e.max_retries resps

/-- `_flush_type(data_type)`: take a batch; if non-empty send it, and on
failure hand the batch back to the buffer via `return_failed`.  Returns
the exporter state, the buffer state, the number of POST attempts, and
the unconsumed HTTP oracle. -/
def flush_type (e : DataExporter) (b : DataBuffer) (dt : String) (now : Nat)
    (resps : List HttpResult) :
    DataExporter × DataBuffer × Nat × List HttpResult :=
  let gb := b.get_batch dt e.batch_size
  if gb.2.isEmpty then (e, gb.1, 0, resps)
  else
    let sr := e.send_with_retry dt gb.2.length now resps
    if sr.2.1 then (sr.1, gb.1, sr.2.2.1, sr.2.2.2)
    else (sr.1, gb.1.return_failed gb.2, sr.2.2.1, sr.2.2.2)

/-- The body of `_flush_all` after the circuit check: recover up to five
spill files, then flush metrics, logs and traces in order.  (At this point
the circuit is never `OPEN`, so the source's `!= OPEN` guard before
recovery always passes.)  Returns the total number of POST attempts. -/
def flushAllBody (e : DataExporter) (b : DataBuffer) (now : Nat)
    (env : List Bool) (resps : List HttpResult) :
    DataExporter × DataBuffer × Nat :=
  let b1 := (b.recover_from_disk 5 env).1
  let r1 := flush_type e b1 "metrics" now resps
  let r2 := flush_type r1.1 r1.2.1 "logs" now r1.2.2.2
  let r3 := flush_type r2.1 r2.2.1 "traces" now r2.2.2.2
  (r3.1, r3.2.1, r1.2.2.1 + r2.2.2.1 + r3.2.2.1)

/-- `_flush_all()`: while `OPEN` with an unexpired deadline, do nothing;
an `OPEN` circuit whose deadline has passed (or was never set) moves to
`HALF_OPEN` with the failure streak reset before flushing. -/
def flush_all (e : DataExporter) (b : DataBuffer) (now : Nat)
    (env : List Bool) (resps : List HttpResult) :
    DataExporter × DataBuffer × Nat :=
  if e.circuit_state = .OPEN then
    match e.circuit_open_until with
    | some u =>
      if now < u then (e, b, 0)
      else flushAllBody
             { e with circuit_state := .HALF_OPEN, failure_count := 0 }
             b now env resps
    | none =>
      flushAllBody { e with circuit_state := .HALF_OPEN, failure_count := 0 }
        b now env resps
  else flushAllBody e b now env resps

/-- `send_topology(topology)`: a direct `_send_with_retry` on the topology
path with a single payload; no circuit-breaker check guards it. -/
def send_topology (e : DataExporter) (now : Nat) (resps : List HttpResult) :
    DataExporter × Bool × Nat × List HttpResult :=
  e.send_with_retry "topology" 1 now resps

end DataExporter

/-! Concrete scenario states used by the counterexamples and witnesses. -/

/-- A buffer holding one metrics item, about to be flushed. -/
def c1buf : DataBuffer := { metrics := [⟨"metrics", 7, 0⟩] }

/-- `_flush_type("metrics")` on `c1buf` when the remote answers 400. -/
def c1res := DataExporter.flush_type {} c1buf "metrics" 0 [.status 400]

/-- An exporter whose circuit is `OPEN` until instant 100. -/
def c2exp : DataExporter := { circuit_state := .OPEN, circuit_open_until := some 100 }

/-- `send_topology` at instant 0 (before the deadline) with a healthy remote. -/
def c2res := DataExporter.send_topology c2exp 0 [.status 200]

/-- An exporter probing in `HALF_OPEN` (failure streak freshly reset). -/
def c3exp : DataExporter := { circuit_state := .HALF_OPEN }

/-- A full failed send (three connection errors) out of `HALF_OPEN`. -/
def c3res := DataExporter.send_with_retry c3exp "metrics" 1 0
  [.connError false, .connError false, .connError false]

/-- An exporter probing in `HALF_OPEN` with four failures on the streak. -/
def c3exp4 : DataExporter := { circuit_state := .HALF_OPEN, failure_count := 4 }

/-- A two-item batch handed to `return_failed`. -/
def c4items : List BufferedData := [⟨"metrics", 1, 0⟩, ⟨"metrics", 2, 0⟩]

/-- A two-slot metrics queue at capacity, for the eviction boundary. -/
def c9full : DataBuffer :=
  { metrics := [⟨"metrics", 1, 0⟩, ⟨"metrics", 2, 0⟩], max_size := 2 }

/-- One `add` on a fresh two-slot buffer. -/
def c6s1 : DataBuffer := (DataBuffer.add (DataBuffer.initState 2 [] 0) "metrics" 7 []).1

/-- Draining the batch... -/
def c6gb := DataBuffer.get_batch c6s1 "metrics" 1000

/-- ...and handing it back as failed. -/
def c6s3 : DataBuffer := DataBuffer.return_failed c6gb.1 c6gb.2

/-- A metrics queue at exactly its capacity of 4. -/
def c7s : DataBuffer :=
  { metrics := [⟨"metrics", 1, 0⟩, ⟨"metrics", 2, 0⟩, ⟨"metrics", 3, 0⟩,
                ⟨"metrics", 4, 0⟩],
    max_size := 4 }

/-- `add` to the full queue with a successful spill. -/
def c7res := DataBuffer.add c7s "metrics" 5 [true, true]

/-- A topology queue at exactly its capacity of 1000. -/
def c7top : DataBuffer := { topology := List.replicate 1000 ⟨"topology", 0, 0⟩ }

/-- `add` to the full topology queue. -/
def c7topRes := DataBuffer.add c7top "topology" 9 []

/-- Three spill files with increasing modification times. -/
def c8fa : SpillFile := { name := 1, kind := "metrics", mtime := 10, payloads := [1] }

/-- Second spill file (middle mtime). -/
def c8fb : SpillFile := { name := 2, kind := "metrics", mtime := 20, payloads := [2] }

/-- Third spill file (newest mtime). -/
def c8fc : SpillFile := { name := 3, kind := "metrics", mtime := 30, payloads := [3] }

/-- An agent restarting with the three files on disk. -/
def c8s : DataBuffer := { disk := [c8fa, c8fb, c8fc], max_size := 5, clock := 100 }

/-- A spill file whose recovery will be interrupted. -/
def c10file : SpillFile := { name := 0, kind := "metrics", mtime := 0, payloads := [1, 2, 3] }

/-- A two-slot buffer with that file on disk. -/
def c10s0 : DataBuffer := { disk := [c10file], max_size := 2, clock := 1 }

/-- First recovery attempt: the third `add` finds the queue full and the
spill fails (environment refuses), so recovery stops partway. -/
def c10r1 := DataBuffer.recover_from_disk c10s0 10 [false]

/-- Second recovery attempt, now with spills succeeding throughout. -/
def c10r2 := DataBuffer.recover_from_disk c10r1.1 10 [true, true, true, true, true, true]

/-! ## Helper lemmas: the bounded-deque model -/

theorem mem_dequeAppend {x y : α} {m : Nat} {xs : List α}
    (h : x ∈ dequeAppend m xs y) : x ∈ xs ∨ x = y := by
  unfold dequeAppend at h
  split at h
  · simp at h
  · split at h
    · rcases List.mem_append.1 h with h | h
      · exact Or.inl (List.tail_sublist xs |>.mem h)
      · simp at h; exact Or.inr h
    · rcases List.mem_append.1 h with h | h
      · exact Or.inl h
      · simp at h; exact Or.inr h

theorem mem_dequeAppendLeft {x y : α} {m : Nat} {xs : List α}
    (h : x ∈ dequeAppendLeft m xs y) : x ∈ xs ∨ x = y := by
  unfold dequeAppendLeft at h
  split at h
  · simp at h
  · split at h
    · rcases List.mem_cons.1 h with h | h
      · exact Or.inr h
      · exact Or.inl (List.dropLast_sublist xs |>.mem h)
    · rcases List.mem_cons.1 h with h | h
      · exact Or.inr h
      · exact Or.inl h

theorem length_dequeAppend_le {y : α} {m : Nat} {xs : List α}
    (h : xs.length ≤ m) : (dequeAppend m xs y).length ≤ m := by
  unfold dequeAppend
  split
  · simp
  · split
    · rename_i hm hl
      rcases xs with _ | ⟨a, as⟩
      · simp at hl; omega
      · simp_all
    · rename_i hm hl
      simp
      omega

theorem length_dequeAppendLeft_le {y : α} {m : Nat} {xs : List α}
    (h : xs.length ≤ m) : (dequeAppendLeft m xs y).length ≤ m := by
  unfold dequeAppendLeft
  split
  · simp
  · split
    · rename_i hm hl
      rcases xs with _ | ⟨a, as⟩
      · simp at hl; omega
      · simp_all [List.length_dropLast]; omega
    · rename_i hm hl
      simp
      omega

theorem dequeAppend_of_lt {y : α} {m : Nat} {xs : List α}
    (h : xs.length < m) : dequeAppend m xs y = xs ++ [y] := by
  unfold dequeAppend
  rw [if_neg (by omega), if_neg (by omega)]

theorem dequeAppendLeft_of_lt {y : α} {m : Nat} {xs : List α}
    (h : xs.length < m) : dequeAppendLeft m xs y = y :: xs := by
  unfold dequeAppendLeft
  rw [if_neg (by omega), if_neg (by omega)]

theorem dequeAppendLeft_full {y : α} {m : Nat} {xs : List α}
    (hm : 1 ≤ m) (h : xs.length = m) : dequeAppendLeft m xs y = y :: xs.dropLast := by
  unfold dequeAppendLeft
  rw [if_neg (by omega), if_pos h]

/-! ## Helper lemmas: deque selection and update -/

namespace DataBuffer

theorem bufOf_setBuf_self (s : DataBuffer) {dt : String} (q : List BufferedData)
    (h : knownType dt) : (s.setBuf dt q).bufOf dt = q := by
  rcases h with h | h | h | h <;> subst h <;> rfl

theorem max_size_setBuf (s : DataBuffer) (dt : String) (q : List BufferedData) :
    (s.setBuf dt q).max_size = s.max_size := by
  unfold setBuf; split <;> try rfl
  split <;> try rfl
  split <;> try rfl
  split <;> rfl

theorem capOf_setBuf (s : DataBuffer) (dt dt' : String) (q : List BufferedData) :
    (s.setBuf dt q).capOf dt' = s.capOf dt' := by
  unfold capOf
  rw [max_size_setBuf]

theorem mem_allItems_setBuf {x : BufferedData} {s : DataBuffer} {dt : String}
    {q : List BufferedData} (h : x ∈ (s.setBuf dt q).allItems) :
    x ∈ s.allItems ∨ x ∈ q := by
  unfold setBuf at h
  split at h
  · unfold allItems at h ⊢; simp [List.mem_append] at h ⊢; tauto
  · split at h
    · unfold allItems at h ⊢; simp [List.mem_append] at h ⊢; tauto
    · split at h
      · unfold allItems at h ⊢; simp [List.mem_append] at h ⊢; tauto
      · split at h
        · unfold allItems at h ⊢; simp [List.mem_append] at h ⊢; tauto
        · exact Or.inl h

theorem mem_allItems_bufOf {x : BufferedData} {s : DataBuffer} {dt : String}
    (h : x ∈ s.bufOf dt) : x ∈ s.allItems := by
  unfold bufOf at h
  unfold allItems
  simp only [List.mem_append]
  split at h
  · tauto
  · split at h
    · tauto
    · split at h
      · tauto
      · split at h
        · tauto
        · simp at h

end DataBuffer

namespace DataBuffer

theorem bufOf_setBuf (s : DataBuffer) (dt dt' : String) (q : List BufferedData) :
    dt' = dt ∧ (s.setBuf dt q).bufOf dt' = q ∨
    (s.setBuf dt q).bufOf dt' = s.bufOf dt' := by
  simp only [setBuf, bufOf]
  split_ifs <;> simp_all

theorem max_size_spillMark (s : DataBuffer) : s.spillMark.max_size = s.max_size := rfl

theorem max_size_spillWrite (s : DataBuffer) (dt : String) (n : Nat) :
    (s.spillWrite dt n).max_size = s.max_size := by
  simp only [spillWrite]
  exact max_size_setBuf ..

theorem max_size_addApply (s : DataBuffer) (dt : String) (it : BufferedData) :
    (s.addApply dt it).max_size = s.max_size := by
  simp only [addApply]
  exact max_size_setBuf ..

theorem max_size_dropMark (s : DataBuffer) : s.dropMark.max_size = s.max_size := rfl

theorem max_size_flushCount (s : DataBuffer) (k : Nat) :
    (s.flushCount k).max_size = s.max_size := rfl

theorem max_size_deleteFile (s : DataBuffer) (nm : Nat) :
    (s.deleteFile nm).max_size = s.max_size := rfl

theorem allItems_spillMark (s : DataBuffer) : s.spillMark.allItems = s.allItems := rfl

theorem allItems_dropMark (s : DataBuffer) : s.dropMark.allItems = s.allItems := rfl

theorem allItems_flushCount (s : DataBuffer) (k : Nat) :
    (s.flushCount k).allItems = s.allItems := rfl

theorem allItems_deleteFile (s : DataBuffer) (nm : Nat) :
    (s.deleteFile nm).allItems = s.allItems := rfl

theorem mem_allItems_spillWrite {x : BufferedData} {s : DataBuffer} {dt : String}
    {n : Nat} (h : x ∈ (s.spillWrite dt n).allItems) : x ∈ s.allItems := by
  simp only [spillWrite] at h
  have h' : x ∈ (s.setBuf dt ((s.bufOf dt).drop n)).allItems := h
  rcases mem_allItems_setBuf h' with h' | h'
  · exact h'
  · exact mem_allItems_bufOf (List.drop_sublist .. |>.mem h')

theorem mem_allItems_addApply {x : BufferedData} {s : DataBuffer} {dt : String}
    {it : BufferedData} (h : x ∈ (s.addApply dt it).allItems) :
    x ∈ s.allItems ∨ x = it := by
  simp only [addApply] at h
  have h' : x ∈ (s.setBuf dt (dequeAppend (s.capOf dt) (s.bufOf dt) it)).allItems := h
  rcases mem_allItems_setBuf h' with h' | h'
  · exact Or.inl h'
  · rcases mem_dequeAppend h' with h' | h'
    · exact Or.inl (mem_allItems_bufOf h')
    · exact Or.inr h'

theorem max_size_spillToDisk (s : DataBuffer) (dt : String) (env : List Bool) :
    (s.spillToDisk dt env).1.max_size = s.max_size := by
  simp only [spillToDisk]
  split_ifs <;> simp [max_size_spillMark, max_size_spillWrite]

theorem max_size_add (s : DataBuffer) (dt : String) (p : Payload) (env : List Bool) :
    (s.add dt p env).1.max_size = s.max_size := by
  simp only [add]
  split_ifs <;>
    simp [max_size_addApply, max_size_dropMark, max_size_spillToDisk]

theorem max_size_get_batch (s : DataBuffer) (dt : String) (k : Nat) :
    (s.get_batch dt k).1.max_size = s.max_size := by
  simp only [get_batch]
  split_ifs <;> simp [max_size_flushCount, max_size_setBuf]

theorem max_size_returnFailedOne (s : DataBuffer) (it : BufferedData) :
    (s.returnFailedOne it).max_size = s.max_size := by
  simp only [returnFailedOne]
  split_ifs <;> simp [max_size_setBuf]

theorem max_size_return_failed (s : DataBuffer) (items : List BufferedData) :
    (s.return_failed items).max_size = s.max_size := by
  induction items generalizing s with
  | nil => rfl
  | cons it rest ih =>
    simp only [return_failed, List.foldl_cons] at ih ⊢
    rw [ih, max_size_returnFailedOne]

theorem max_size_addAll (s : DataBuffer) (dt : String) (ps : List Payload)
    (env : List Bool) : (s.addAll dt ps env).1.max_size = s.max_size := by
  induction ps generalizing s env with
  | nil => rfl
  | cons p rest ih =>
    simp only [addAll]
    split_ifs <;> simp [ih, max_size_add]

theorem max_size_recoverLoop (s : DataBuffer) (files : List SpillFile)
    (env : List Bool) : (s.recoverLoop files env).1.max_size = s.max_size := by
  induction files generalizing s env with
  | nil => rfl
  | cons f rest ih =>
    simp only [recoverLoop]
    split_ifs <;> simp [ih, max_size_deleteFile, max_size_addAll]

theorem max_size_recover (s : DataBuffer) (k : Nat) (env : List Bool) :
    (s.recover_from_disk k env).1.max_size = s.max_size := by
  simp only [recover_from_disk]
  exact max_size_recoverLoop ..

/-! Membership in the in-memory queues across each operation. -/

theorem spillToDisk_fst_eq (s : DataBuffer) (dt : String) (env : List Bool) :
    (s.spillToDisk dt env).1 = s.spillMark ∨
    ∃ n, (s.spillToDisk dt env).1 = s.spillMark.spillWrite dt n := by
  simp only [spillToDisk]
  split_ifs <;> simp

theorem mem_allItems_spillToDisk {x : BufferedData} {s : DataBuffer} {dt : String}
    {env : List Bool} (h : x ∈ (s.spillToDisk dt env).1.allItems) :
    x ∈ s.allItems := by
  rcases spillToDisk_fst_eq s dt env with he | ⟨n, he⟩ <;> rw [he] at h
  · rw [allItems_spillMark] at h
    exact h
  · have h2 := mem_allItems_spillWrite h
    rw [allItems_spillMark] at h2
    exact h2

theorem mem_allItems_add {x : BufferedData} {s : DataBuffer} {dt : String}
    {p : Payload} {env : List Bool} (h : x ∈ (s.add dt p env).1.allItems) :
    x ∈ s.allItems ∨ x.attempts = 0 := by
  simp only [add] at h
  split_ifs at h
  · rcases mem_allItems_addApply h with h | h
    · exact Or.inl (mem_allItems_spillToDisk h)
    · subst h; exact Or.inr rfl
  · exact Or.inl (mem_allItems_spillToDisk h)
  · rcases mem_allItems_addApply h with h | h
    · exact Or.inl h
    · subst h; exact Or.inr rfl
  · exact Or.inl h

theorem mem_allItems_get_batch {x : BufferedData} {s : DataBuffer} {dt : String}
    {k : Nat} (h : x ∈ (s.get_batch dt k).1.allItems) : x ∈ s.allItems := by
  simp only [get_batch] at h
  split_ifs at h
  · rw [allItems_flushCount] at h
    rcases mem_allItems_setBuf h with h | h
    · exact h
    · exact mem_allItems_bufOf (List.drop_sublist .. |>.mem h)
  · exact h

theorem mem_allItems_returnFailedOne {x : BufferedData} {s : DataBuffer}
    {it : BufferedData} (h : x ∈ (s.returnFailedOne it).allItems) :
    x ∈ s.allItems ∨ x.attempts ≤ 4 := by
  simp only [returnFailedOne] at h
  split_ifs at h with h5 hk
  · rcases mem_allItems_setBuf h with h | h
    · exact Or.inl h
    · rcases mem_dequeAppendLeft h with h | h
      · exact Or.inl (mem_allItems_bufOf h)
      · subst h; right; simpa using Nat.lt_succ_iff.1 h5
  · exact Or.inl h
  · exact Or.inl h

theorem mem_allItems_return_failed {x : BufferedData} {s : DataBuffer}
    {items : List BufferedData} (h : x ∈ (s.return_failed items).allItems) :
    x ∈ s.allItems ∨ x.attempts ≤ 4 := by
  induction items generalizing s with
  | nil => exact Or.inl h
  | cons it rest ih =>
    simp only [return_failed, List.foldl_cons] at h
    rcases ih h with h | h
    · exact mem_allItems_returnFailedOne h
    · exact Or.inr h

theorem mem_allItems_addAll {x : BufferedData} {s : DataBuffer} {dt : String}
    {ps : List Payload} {env : List Bool} (h : x ∈ (s.addAll dt ps env).1.allItems) :
    x ∈ s.allItems ∨ x.attempts = 0 := by
  induction ps generalizing s env with
  | nil => exact Or.inl h
  | cons p rest ih =>
    simp only [addAll] at h
    split_ifs at h
    · rcases ih h with h | h
      · exact mem_allItems_add h
      · exact Or.inr h
    · exact mem_allItems_add h

theorem mem_allItems_recoverLoop {x : BufferedData} {s : DataBuffer}
    {files : List SpillFile} {env : List Bool}
    (h : x ∈ (s.recoverLoop files env).1.allItems) :
    x ∈ s.allItems ∨ x.attempts = 0 := by
  induction files generalizing s env with
  | nil => exact Or.inl h
  | cons f rest ih =>
    simp only [recoverLoop] at h
    split_ifs at h
    · rcases ih h with h | h
      · exact mem_allItems_addAll h
      · exact Or.inr h
    · exact mem_allItems_addAll h

theorem mem_allItems_recover {x : BufferedData} {s : DataBuffer} {k : Nat}
    {env : List Bool} (h : x ∈ (s.recover_from_disk k env).1.allItems) :
    x ∈ s.allItems ∨ x.attempts = 0 := by
  simp only [recover_from_disk] at h
  exact mem_allItems_recoverLoop h

/-- Attempts bound on every item in memory, in every reachable state: the
source re-queues an item only while its incremented counter is below 5. -/
theorem reach_attempts_le {s : DataBuffer} (h : Reach s) :
    ∀ x ∈ s.allItems, x.attempts ≤ 4 := by
  induction h with
  | init M disk clock =>
    intro x hx
    simp [initState, allItems] at hx
  | add s dt p env _ ih =>
    intro x hx
    rcases mem_allItems_add hx with hx | hx
    · exact ih x hx
    · omega
  | get_batch s dt k _ ih =>
    intro x hx
    exact ih x (mem_allItems_get_batch hx)
  | return_failed s items _ ih =>
    intro x hx
    rcases mem_allItems_return_failed hx with hx | hx
    · exact ih x hx
    · exact hx
  | recover s k env _ ih =>
    intro x hx
    rcases mem_allItems_recover hx with hx | hx
    · exact ih x hx
    · omega

end DataBuffer

namespace DataBuffer

theorem capOf_congr {s t : DataBuffer} (h : s.max_size = t.max_size)
    (d : String) : s.capOf d = t.capOf d := by
  unfold capOf
  rw [h]

theorem bufOf_spillMark (s : DataBuffer) (d : String) :
    s.spillMark.bufOf d = s.bufOf d := rfl

theorem bufOf_dropMark (s : DataBuffer) (d : String) :
    s.dropMark.bufOf d = s.bufOf d := rfl

theorem bufOf_flushCount (s : DataBuffer) (k : Nat) (d : String) :
    (s.flushCount k).bufOf d = s.bufOf d := rfl

theorem bufOf_deleteFile (s : DataBuffer) (nm : Nat) (d : String) :
    (s.deleteFile nm).bufOf d = s.bufOf d := rfl

theorem bufOf_spillWrite (s : DataBuffer) (dt : String) (n : Nat) (d : String) :
    (s.spillWrite dt n).bufOf d = (s.setBuf dt ((s.bufOf dt).drop n)).bufOf d := rfl

theorem bufOf_addApply (s : DataBuffer) (dt : String) (it : BufferedData)
    (d : String) :
    (s.addApply dt it).bufOf d =
      (s.setBuf dt (dequeAppend (s.capOf dt) (s.bufOf dt) it)).bufOf d := rfl

theorem lenBound_setBuf {s : DataBuffer} {dt : String} {q : List BufferedData}
    (h : ∀ d, (s.bufOf d).length ≤ s.capOf d)
    (hq : q.length ≤ s.capOf dt) :
    ∀ d, ((s.setBuf dt q).bufOf d).length ≤ (s.setBuf dt q).capOf d := by
  intro d
  rw [capOf_congr (max_size_setBuf s dt q) d]
  rcases bufOf_setBuf s dt d q with ⟨rfl, hb⟩ | hb <;> rw [hb]
  · exact hq
  · exact h d

theorem lenBound_spillWrite {s : DataBuffer} {dt : String} {n : Nat}
    (h : ∀ d, (s.bufOf d).length ≤ s.capOf d) :
    ∀ d, ((s.spillWrite dt n).bufOf d).length ≤ (s.spillWrite dt n).capOf d := by
  intro d
  rw [bufOf_spillWrite, capOf_congr (max_size_spillWrite s dt n) d]
  have h2 := lenBound_setBuf (q := (s.bufOf dt).drop n) h
    ((List.drop_sublist n (s.bufOf dt)).length_le.trans (h dt)) d
  rwa [capOf_congr (max_size_setBuf ..) d] at h2

theorem lenBound_addApply {s : DataBuffer} {dt : String} {it : BufferedData}
    (h : ∀ d, (s.bufOf d).length ≤ s.capOf d) :
    ∀ d, ((s.addApply dt it).bufOf d).length ≤ (s.addApply dt it).capOf d := by
  intro d
  rw [bufOf_addApply, capOf_congr (max_size_addApply s dt it) d]
  have h2 := lenBound_setBuf (q := dequeAppend (s.capOf dt) (s.bufOf dt) it) h
    (length_dequeAppend_le (y := it) (h dt)) d
  rwa [capOf_congr (max_size_setBuf ..) d] at h2

theorem lenBound_spillToDisk {s : DataBuffer} {dt : String} {env : List Bool}
    (h : ∀ d, (s.bufOf d).length ≤ s.capOf d) :
    ∀ d, ((s.spillToDisk dt env).1.bufOf d).length ≤
      (s.spillToDisk dt env).1.capOf d := by
  intro d
  rcases spillToDisk_fst_eq s dt env with he | ⟨n, he⟩ <;> rw [he]
  · exact h d
  · exact lenBound_spillWrite (s := s.spillMark) (fun d' => h d') d

theorem lenBound_add {s : DataBuffer} {dt : String} {p : Payload}
    {env : List Bool} (h : ∀ d, (s.bufOf d).length ≤ s.capOf d) :
    ∀ d, ((s.add dt p env).1.bufOf d).length ≤ (s.add dt p env).1.capOf d := by
  intro d
  simp only [add]
  split_ifs
  · exact lenBound_addApply (lenBound_spillToDisk h) d
  · exact lenBound_spillToDisk h d
  · exact lenBound_addApply h d
  · exact h d

theorem lenBound_get_batch {s : DataBuffer} {dt : String} {k : Nat}
    (h : ∀ d, (s.bufOf d).length ≤ s.capOf d) :
    ∀ d, ((s.get_batch dt k).1.bufOf d).length ≤ (s.get_batch dt k).1.capOf d := by
  intro d
  simp only [get_batch]
  split_ifs
  · exact lenBound_setBuf (q := (s.bufOf dt).drop k) h
      ((List.drop_sublist k (s.bufOf dt)).length_le.trans (h dt)) d
  · exact h d

theorem lenBound_returnFailedOne {s : DataBuffer} {it : BufferedData}
    (h : ∀ d, (s.bufOf d).length ≤ s.capOf d) :
    ∀ d, ((s.returnFailedOne it).bufOf d).length ≤ (s.returnFailedOne it).capOf d := by
  intro d
  simp only [returnFailedOne]
  split_ifs
  · exact lenBound_setBuf h (length_dequeAppendLeft_le (h it.data_type)) d
  · exact h d
  · exact h d

theorem lenBound_return_failed {s : DataBuffer} {items : List BufferedData}
    (h : ∀ d, (s.bufOf d).length ≤ s.capOf d) :
    ∀ d, ((s.return_failed items).bufOf d).length ≤
      (s.return_failed items).capOf d := by
  induction items generalizing s with
  | nil => exact h
  | cons it rest ih =>
    simp only [return_failed, List.foldl_cons] at ih ⊢
    exact ih (lenBound_returnFailedOne h)

theorem lenBound_addAll {s : DataBuffer} {dt : String} {ps : List Payload}
    {env : List Bool} (h : ∀ d, (s.bufOf d).length ≤ s.capOf d) :
    ∀ d, ((s.addAll dt ps env).1.bufOf d).length ≤
      (s.addAll dt ps env).1.capOf d := by
  induction ps generalizing s env with
  | nil => exact h
  | cons p rest ih =>
    simp only [addAll]
    split_ifs
    · exact ih (lenBound_add h)
    · exact lenBound_add h

theorem lenBound_recoverLoop {s : DataBuffer} {files : List SpillFile}
    {env : List Bool} (h : ∀ d, (s.bufOf d).length ≤ s.capOf d) :
    ∀ d, ((s.recoverLoop files env).1.bufOf d).length ≤
      (s.recoverLoop files env).1.capOf d := by
  induction files generalizing s env with
  | nil => exact h
  | cons f rest ih =>
    simp only [recoverLoop]
    split_ifs
    · exact ih (lenBound_addAll h)
    · exact lenBound_addAll h

theorem lenBound_recover {s : DataBuffer} {k : Nat} {env : List Bool}
    (h : ∀ d, (s.bufOf d).length ≤ s.capOf d) :
    ∀ d, ((s.recover_from_disk k env).1.bufOf d).length ≤
      (s.recover_from_disk k env).1.capOf d := by
  simp only [recover_from_disk]
  exact lenBound_recoverLoop h

/-- The per-kind queues never exceed their construction capacities in any
reachable state. -/
theorem reach_lenBound {s : DataBuffer} (hr : Reach s) :
    ∀ d, (s.bufOf d).length ≤ s.capOf d := by
  induction hr with
  | init M disk clock =>
    intro d
    unfold initState bufOf capOf
    split_ifs <;> simp
  | add s dt p env _ ih => exact lenBound_add ih
  | get_batch s dt k _ ih => exact lenBound_get_batch ih
  | return_failed s items _ ih => exact lenBound_return_failed ih
  | recover s k env _ ih => exact lenBound_recover ih

end DataBuffer

namespace DataBuffer

theorem returnFailedOne_eq {s : DataBuffer} {it : BufferedData}
    (hk : knownType it.data_type) (ha : it.attempts + 1 < 5)
    (hlen : (s.bufOf it.data_type).length < s.capOf it.data_type) :
    s.returnFailedOne it =
      s.setBuf it.data_type (bumpAttempts it :: s.bufOf it.data_type) := by
  simp only [returnFailedOne]
  split_ifs
  rw [dequeAppendLeft_of_lt hlen]
  rfl

theorem returnFailedOne_evict {s : DataBuffer} {it : BufferedData}
    (hk : knownType it.data_type) (ha : it.attempts + 1 < 5)
    (hcap : 1 ≤ s.capOf it.data_type)
    (hlen : (s.bufOf it.data_type).length = s.capOf it.data_type) :
    s.returnFailedOne it =
      s.setBuf it.data_type
        (bumpAttempts it :: (s.bufOf it.data_type).dropLast) := by
  simp only [returnFailedOne]
  split_ifs
  rw [dequeAppendLeft_full hcap hlen]
  rfl

/-- When every item of the batch belongs to kind `dt`, survives the
attempt cap, and the queue has room for the whole batch, `return_failed`
prepends the batch — attempts incremented — in reverse list order. -/
theorem return_failed_append {dt : String} (hdt : knownType dt) :
    ∀ (items : List BufferedData) (s : DataBuffer),
      (∀ it ∈ items, it.data_type = dt ∧ it.attempts + 1 < 5) →
      (s.bufOf dt).length + items.length ≤ s.capOf dt →
      (s.return_failed items).bufOf dt =
        (items.map bumpAttempts).reverse ++ s.bufOf dt := by
  intro items
  induction items with
  | nil =>
    intro s _ _
    simp [return_failed]
  | cons it rest ih =>
    intro s hall hlen
    obtain ⟨hdt', ha⟩ := hall it (List.mem_cons_self ..)
    simp only [List.length_cons] at hlen
    have hlt : (s.bufOf dt).length < s.capOf dt := by omega
    have hstep : s.returnFailedOne it =
        s.setBuf dt (bumpAttempts it :: s.bufOf dt) := by
      have h0 := @returnFailedOne_eq s it
        (by rw [hdt']; exact hdt) ha (by rw [hdt']; exact hlt)
      rwa [hdt'] at h0
    have hrest := ih (s.setBuf dt (bumpAttempts it :: s.bufOf dt))
      (fun x hx => hall x (List.mem_cons_of_mem _ hx))
      (by rw [bufOf_setBuf_self _ _ hdt, capOf_congr (max_size_setBuf ..) dt]
          simp only [List.length_cons]
          omega)
    calc (s.return_failed (it :: rest)).bufOf dt
        = ((s.returnFailedOne it).return_failed rest).bufOf dt := rfl
      _ = ((s.setBuf dt (bumpAttempts it :: s.bufOf dt)).return_failed rest).bufOf dt := by
            rw [hstep]
      _ = (rest.map bumpAttempts).reverse ++ (bumpAttempts it :: s.bufOf dt) := by
            rw [hrest, bufOf_setBuf_self _ _ hdt]
      _ = ((it :: rest).map bumpAttempts).reverse ++ s.bufOf dt := by
            simp [List.append_assoc]

end DataBuffer

/-! ## Helper lemmas: the exporter -/

namespace DataExporter

/-- While the circuit is `OPEN` with an unexpired deadline, one forwarder
iteration does nothing: no recovery, no POST, no state change. -/
theorem flush_all_open {e : DataExporter} {b : DataBuffer} {now u : Nat}
    {env : List Bool} {resps : List HttpResult}
    (h1 : e.circuit_state = .OPEN) (h2 : e.circuit_open_until = some u)
    (h3 : now < u) :
    flush_all e b now env resps = (e, b, 0) := by
  simp [flush_all, h1, h2, h3]

/-- `_record_failure` on a non-DNS error once the incremented streak meets
the threshold, away from `OPEN`: the circuit opens with deadline
`now + circuit_breaker_timeout`. -/
theorem record_failure_opens {e : DataExporter} {now : Nat}
    (h1 : e.circuit_state ≠ .OPEN)
    (h2 : e.circuit_breaker_threshold ≤ e.failure_count + 1) :
    (e.record_failure false now).circuit_state = .OPEN ∧
    (e.record_failure false now).circuit_open_until =
      some (now + e.circuit_breaker_timeout) := by
  simp [record_failure, open_circuit, h1, h2]

/-- A 4xx (non-429, non-200) first response makes `_flush_type` give up
after a single POST: `requests_made` and `requests_failed` each advance by
one, the circuit-breaker fields are untouched, and the whole batch is
handed back to the buffer through `return_failed`. -/
theorem flush_type_client_error {e : DataExporter} {b : DataBuffer}
    {dt : String} {c now : Nat} {rs : List HttpResult}
    (hmr : 1 ≤ e.max_retries)
    (hc4 : 400 ≤ c) (hc5 : c < 500) (hc429 : c ≠ 429)
    (hne : (b.get_batch dt e.batch_size).2 ≠ []) :
    flush_type e b dt now (.status c :: rs) =
      ({ e with requests_made := e.requests_made + 1,
                requests_failed := e.requests_failed + 1 },
       (b.get_batch dt e.batch_size).1.return_failed
         (b.get_batch dt e.batch_size).2, 1, rs) := by
  obtain ⟨m, hm⟩ : ∃ m, e.max_retries = m + 1 := ⟨e.max_retries - 1, by omega⟩
  have h200 : ¬ (c = 200) := by omega
  have h500 : ¬ (500 ≤ c) := by omega
  have hempty : ¬ ((b.get_batch dt e.batch_size).2.isEmpty = true) := by
    simpa [List.isEmpty_iff] using hne
  simp only [flush_type]
  rw [if_neg hempty]
  simp only [send_with_retry, hm, sendLoop]
  rw [if_neg h200, if_neg hc429, if_neg h500]
  simp

end DataExporter

/-! ## Helper lemmas: the bookkeeping identity fragment (claim C6) -/

namespace DataBuffer

theorem disk_setBuf (s : DataBuffer) (dt : String) (q : List BufferedData) :
    (s.setBuf dt q).disk = s.disk := by
  unfold setBuf
  split_ifs <;> rfl

theorem total_added_setBuf (s : DataBuffer) (dt : String) (q : List BufferedData) :
    (s.setBuf dt q).total_added = s.total_added := by
  unfold setBuf
  split_ifs <;> rfl

theorem total_flushed_setBuf (s : DataBuffer) (dt : String) (q : List BufferedData) :
    (s.setBuf dt q).total_flushed = s.total_flushed := by
  unfold setBuf
  split_ifs <;> rfl

theorem drop_count_setBuf (s : DataBuffer) (dt : String) (q : List BufferedData) :
    (s.setBuf dt q).drop_count = s.drop_count := by
  unfold setBuf
  split_ifs <;> rfl

theorem memCount_setBuf {dt : String} (h : knownType dt)
    (s : DataBuffer) (q : List BufferedData) :
    memCount (s.setBuf dt q) + (s.bufOf dt).length = memCount s + q.length := by
  rcases h with h | h | h | h <;> subst h <;>
    simp +decide [memCount, setBuf, bufOf] <;> omega

theorem diskCount_append (s : DataBuffer) (fs : List SpillFile) :
    (List.map (fun f => f.payloads.length) (s.disk ++ fs)).sum =
      diskCount s + (List.map (fun f => f.payloads.length) fs).sum := by
  simp [diskCount]

theorem capOf_eq_max_size {s : DataBuffer} {dt : String}
    (h : dt = "metrics" ∨ dt = "logs" ∨ dt = "traces") :
    s.capOf dt = s.max_size := by
  rcases h with h | h | h <;> subst h <;> simp +decide [capOf]

/-- Conservation shape of a successful spill: `n` items move from memory
to disk, nothing else changes in the accounting. -/
theorem spillWrite_accounting {s : DataBuffer} {dt : String} {n : Nat}
    (hdt : knownType dt) (hn : n ≤ (s.bufOf dt).length) :
    (s.spillWrite dt n).total_added = s.total_added ∧
    (s.spillWrite dt n).total_flushed = s.total_flushed ∧
    (s.spillWrite dt n).drop_count = s.drop_count ∧
    memCount (s.spillWrite dt n) + n = memCount s ∧
    diskCount (s.spillWrite dt n) = diskCount s + n := by
  refine ⟨total_added_setBuf .., total_flushed_setBuf .., drop_count_setBuf ..,
    ?_, ?_⟩
  · have h1 := memCount_setBuf hdt s ((s.bufOf dt).drop n)
    have h2 : ((s.bufOf dt).drop n).length = (s.bufOf dt).length - n :=
      List.length_drop ..
    show memCount (s.setBuf dt ((s.bufOf dt).drop n)) + n = memCount s
    omega
  · show (List.map (fun f => f.payloads.length)
        ((s.setBuf dt ((s.bufOf dt).drop n)).disk ++
          [⟨s.clock, dt, s.clock, ((s.bufOf dt).take n).map (·.payload)⟩])).sum =
      diskCount s + n
    rw [disk_setBuf]
    rw [diskCount_append]
    simp [List.length_take]
    omega

end DataBuffer

namespace DataBuffer

/-- When the environment accepts both checks and there is something to
spill, `_spill_to_disk` commits the write of `min(len // 2, 1000)` items. -/
theorem spillToDisk_ok {s : DataBuffer} {dt : String} {env : List Bool}
    (h1 : env.headD true = true) (h2 : env.tail.headD true = true)
    (hn : min ((s.bufOf dt).length / 2) 1000 ≠ 0) :
    s.spillToDisk dt env =
      (s.spillMark.spillWrite dt (min ((s.bufOf dt).length / 2) 1000), true,
       env.tail.tail) := by
  simp only [spillToDisk, bufOf_spillMark]
  rw [if_pos h1, if_neg hn, if_pos h2]

/-- When the environment rejects the directory-creation step, the spill
fails without touching queues or disk. -/
theorem spillToDisk_mkdir_fail {s : DataBuffer} {dt : String} {env : List Bool}
    (h1 : env.headD true = false) :
    s.spillToDisk dt env = (s.spillMark, false, env.tail) := by
  simp only [spillToDisk, bufOf_spillMark]
  rw [if_neg (by rw [h1]; exact Bool.false_ne_true)]

theorem conservation_add {s : DataBuffer} {dt : String} {p : Payload}
    (hdt3 : dt = "metrics" ∨ dt = "logs" ∨ dt = "traces")
    (hM : 2 ≤ s.max_size)
    (hlen : ∀ d, (s.bufOf d).length ≤ s.capOf d)
    (hc : s.total_added = s.total_flushed + s.drop_count +
      memCount s + diskCount s) :
    (s.add dt p []).1.total_added =
      (s.add dt p []).1.total_flushed + (s.add dt p []).1.drop_count +
      memCount (s.add dt p []).1 + diskCount (s.add dt p []).1 := by
  have hdt : knownType dt := by
    rcases hdt3 with h | h | h <;> subst h <;> simp [knownType]
  have hcap : s.capOf dt = s.max_size := capOf_eq_max_size hdt3
  simp only [add, if_pos hdt]
  by_cases hfull : s.max_size ≤ (s.bufOf dt).length
  · -- queue full: env [] accepts both spill checks
    have hlen_eq : (s.bufOf dt).length = s.max_size := by
      have := hlen dt
      omega
    have hn0 : min ((s.bufOf dt).length / 2) 1000 ≠ 0 := by
      rw [hlen_eq]
      have : 1 ≤ s.max_size / 2 := by omega
      simp [Nat.min_eq_zero_iff]
      omega
    rw [if_pos hfull]
    rw [@spillToDisk_ok s dt [] rfl rfl hn0]
    set n := min ((s.bufOf dt).length / 2) 1000 with hn_def
    have hnle : n ≤ (s.bufOf dt).length := by
      have := Nat.min_le_left ((s.bufOf dt).length / 2) 1000
      have := Nat.div_le_self (s.bufOf dt).length 2
      omega
    obtain ⟨ha1, ha2, ha3, ha4, ha5⟩ :=
      @spillWrite_accounting s.spillMark dt n hdt hnle
    set X := s.spillMark.spillWrite dt n with hX
    -- the append after the spill does not evict
    have hbufX : X.bufOf dt = (s.bufOf dt).drop n := by
      rw [hX, bufOf_spillWrite, bufOf_spillMark,
        bufOf_setBuf_self _ _ hdt]
    have hcapX : X.capOf dt = s.max_size := by
      rw [capOf_congr (max_size_spillWrite ..) dt]
      exact hcap
    have hlenX : (X.bufOf dt).length < X.capOf dt := by
      rw [hbufX, hcapX, List.length_drop]
      have hn1 : 1 ≤ n := Nat.one_le_iff_ne_zero.mpr hn0
      omega
    have happend : dequeAppend (X.capOf dt) (X.bufOf dt) ⟨dt, p, 0⟩ =
        X.bufOf dt ++ [⟨dt, p, 0⟩] := dequeAppend_of_lt hlenX
    -- accounting of the final addApply
    show (X.addApply dt ⟨dt, p, 0⟩).total_added =
      (X.addApply dt ⟨dt, p, 0⟩).total_flushed +
      (X.addApply dt ⟨dt, p, 0⟩).drop_count +
      memCount (X.addApply dt ⟨dt, p, 0⟩) + diskCount (X.addApply dt ⟨dt, p, 0⟩)
    have hm := memCount_setBuf hdt X
      (dequeAppend (X.capOf dt) (X.bufOf dt) ⟨dt, p, 0⟩)
    rw [happend] at hm
    simp only [List.length_append, List.length_cons, List.length_nil] at hm
    have htaX : (X.addApply dt ⟨dt, p, 0⟩).total_added = X.total_added + 1 := by
      show (X.setBuf dt _).total_added + 1 = X.total_added + 1
      rw [total_added_setBuf]
    have htfX : (X.addApply dt ⟨dt, p, 0⟩).total_flushed = X.total_flushed := by
      show (X.setBuf dt _).total_flushed = X.total_flushed
      rw [total_flushed_setBuf]
    have hdcX : (X.addApply dt ⟨dt, p, 0⟩).drop_count = X.drop_count := by
      show (X.setBuf dt _).drop_count = X.drop_count
      rw [drop_count_setBuf]
    have hmemX : memCount (X.addApply dt ⟨dt, p, 0⟩) =
        memCount (X.setBuf dt (dequeAppend (X.capOf dt) (X.bufOf dt) ⟨dt, p, 0⟩)) :=
      rfl
    have hdkX : diskCount (X.addApply dt ⟨dt, p, 0⟩) =
        diskCount X := by
      show (List.map _ (X.setBuf dt _).disk).sum = diskCount X
      rw [disk_setBuf]
      rfl
    rw [happend] at hmemX
    have hsm1 : s.spillMark.total_added = s.total_added := rfl
    have hsm2 : s.spillMark.total_flushed = s.total_flushed := rfl
    have hsm3 : s.spillMark.drop_count = s.drop_count := rfl
    have hsm4 : memCount s.spillMark = memCount s := rfl
    have hsm5 : diskCount s.spillMark = diskCount s := rfl
    rw [htaX, htfX, hdcX, hmemX, hdkX, ha1, ha2, ha3, ha5,
      hsm1, hsm2, hsm3, hsm5]
    omega
  · -- queue not full: plain append, no eviction
    rw [if_neg hfull]
    have hlt : (s.bufOf dt).length < s.capOf dt := by
      rw [hcap]
      omega
    have happend : dequeAppend (s.capOf dt) (s.bufOf dt) ⟨dt, p, 0⟩ =
        s.bufOf dt ++ [⟨dt, p, 0⟩] := dequeAppend_of_lt hlt
    show (s.addApply dt ⟨dt, p, 0⟩).total_added =
      (s.addApply dt ⟨dt, p, 0⟩).total_flushed +
      (s.addApply dt ⟨dt, p, 0⟩).drop_count +
      memCount (s.addApply dt ⟨dt, p, 0⟩) + diskCount (s.addApply dt ⟨dt, p, 0⟩)
    have hm := memCount_setBuf hdt s
      (dequeAppend (s.capOf dt) (s.bufOf dt) ⟨dt, p, 0⟩)
    rw [happend] at hm
    simp only [List.length_append, List.length_cons, List.length_nil] at hm
    have hta : (s.addApply dt ⟨dt, p, 0⟩).total_added = s.total_added + 1 := by
      show (s.setBuf dt _).total_added + 1 = s.total_added + 1
      rw [total_added_setBuf]
    have htf : (s.addApply dt ⟨dt, p, 0⟩).total_flushed = s.total_flushed := by
      show (s.setBuf dt _).total_flushed = s.total_flushed
      rw [total_flushed_setBuf]
    have hdc : (s.addApply dt ⟨dt, p, 0⟩).drop_count = s.drop_count := by
      show (s.setBuf dt _).drop_count = s.drop_count
      rw [drop_count_setBuf]
    have hmem : memCount (s.addApply dt ⟨dt, p, 0⟩) =
        memCount (s.setBuf dt (dequeAppend (s.capOf dt) (s.bufOf dt) ⟨dt, p, 0⟩)) :=
      rfl
    have hdk : diskCount (s.addApply dt ⟨dt, p, 0⟩) = diskCount s := by
      show (List.map _ (s.setBuf dt _).disk).sum = diskCount s
      rw [disk_setBuf]
      rfl
    rw [happend] at hmem
    rw [hta, htf, hdc, hmem, hdk]
    omega

theorem flushCount_total_added (s : DataBuffer) (k : Nat) :
    (s.flushCount k).total_added = s.total_added := rfl

theorem flushCount_total_flushed (s : DataBuffer) (k : Nat) :
    (s.flushCount k).total_flushed = s.total_flushed + k := rfl

theorem flushCount_drop_count (s : DataBuffer) (k : Nat) :
    (s.flushCount k).drop_count = s.drop_count := rfl

theorem memCount_flushCount (s : DataBuffer) (k : Nat) :
    memCount (s.flushCount k) = memCount s := rfl

theorem diskCount_flushCount (s : DataBuffer) (k : Nat) :
    diskCount (s.flushCount k) = diskCount s := rfl

theorem diskCount_setBuf (s : DataBuffer) (dt : String) (q : List BufferedData) :
    diskCount (s.setBuf dt q) = diskCount s := by
  show (List.map _ (s.setBuf dt q).disk).sum = diskCount s
  rw [disk_setBuf]
  rfl

theorem conservation_get_batch {s : DataBuffer} {dt : String} {k : Nat}
    (hc : s.total_added = s.total_flushed + s.drop_count +
      memCount s + diskCount s) :
    (s.get_batch dt k).1.total_added =
      (s.get_batch dt k).1.total_flushed + (s.get_batch dt k).1.drop_count +
      memCount (s.get_batch dt k).1 + diskCount (s.get_batch dt k).1 := by
  simp only [get_batch]
  split_ifs with hdt
  · rw [flushCount_total_added, flushCount_total_flushed, flushCount_drop_count,
      memCount_flushCount, diskCount_flushCount, total_added_setBuf,
      total_flushed_setBuf, drop_count_setBuf, diskCount_setBuf]
    have hm := memCount_setBuf hdt s ((s.bufOf dt).drop k)
    have hd : ((s.bufOf dt).drop k).length = (s.bufOf dt).length - k :=
      List.length_drop ..
    have ht : ((s.bufOf dt).take k).length = min k (s.bufOf dt).length :=
      List.length_take ..
    rw [ht]
    omega
  · exact hc

end DataBuffer

namespace DataBuffer

/-- The invariant for the `add`/`get_batch` fragment: configured capacity
at least 2, queues within capacity, and the bookkeeping identity. -/
theorem reachAG_inv {s : DataBuffer} (h : ReachAG s) :
    2 ≤ s.max_size ∧ (∀ d, (s.bufOf d).length ≤ s.capOf d) ∧
    s.total_added = s.total_flushed + s.drop_count +
      memCount s + diskCount s := by
  induction h with
  | init M clock hM =>
    refine ⟨hM, ?_, ?_⟩
    · intro d
      unfold initState bufOf
      split_ifs <;> simp
    · simp [initState, memCount, diskCount]
  | add s dt p _ hdt3 ih =>
    exact ⟨by rw [max_size_add]; exact ih.1, lenBound_add ih.2.1,
      conservation_add hdt3 ih.1 ih.2.1 ih.2.2⟩
  | get_batch s dt k _ ih =>
    exact ⟨by rw [max_size_get_batch]; exact ih.1, lenBound_get_batch ih.2.1,
      conservation_get_batch ih.2.2⟩

/-! Helper lemmas for claim C7: `add` against a queue at exactly capacity. -/

theorem spill_attempts_spillWrite (s : DataBuffer) (dt : String) (n : Nat) :
    (s.spillWrite dt n).spill_attempts = s.spill_attempts := by
  show (s.setBuf dt _).spill_attempts + 0 = s.spill_attempts + 0
  unfold setBuf
  split_ifs <;> rfl

theorem add_full_spill_ok {s : DataBuffer} {dt : String} {p : Payload}
    (hdt3 : dt = "metrics" ∨ dt = "logs" ∨ dt = "traces")
    (hM : 2 ≤ s.max_size)
    (hfull : (s.bufOf dt).length = s.max_size) :
    (s.add dt p [true, true]).2.1 = true ∧
    ((s.add dt p [true, true]).1.bufOf dt).length =
      s.max_size - min (s.max_size / 2) 1000 + 1 ∧
    (s.add dt p [true, true]).1.spill_attempts = s.spill_attempts + 1 ∧
    (s.add dt p [true, true]).1.drop_count = s.drop_count := by
  have hdt : knownType dt := by
    rcases hdt3 with h | h | h <;> subst h <;> simp [knownType]
  have hcap : s.capOf dt = s.max_size := capOf_eq_max_size hdt3
  have hfull' : s.max_size ≤ (s.bufOf dt).length := le_of_eq hfull.symm
  have hn0 : min ((s.bufOf dt).length / 2) 1000 ≠ 0 := by
    rw [hfull]
    have : 1 ≤ s.max_size / 2 := by omega
    simp [Nat.min_eq_zero_iff]
    omega
  have hspill := @spillToDisk_ok s dt [true, true] rfl rfl hn0
  simp only [add, if_pos hdt, if_pos hfull', hspill]
  set n := min ((s.bufOf dt).length / 2) 1000 with hn_def
  set X := s.spillMark.spillWrite dt n with hX
  have hbufX : X.bufOf dt = (s.bufOf dt).drop n := by
    rw [hX, bufOf_spillWrite, bufOf_spillMark, bufOf_setBuf_self _ _ hdt]
  have hcapX : X.capOf dt = s.max_size := by
    rw [hX, capOf_congr (max_size_spillWrite ..) dt]
    exact hcap
  have hn1 : 1 ≤ n := Nat.one_le_iff_ne_zero.mpr hn0
  have hnle : n ≤ (s.bufOf dt).length := by
    have h1 := Nat.min_le_left ((s.bufOf dt).length / 2) 1000
    have h2 := Nat.div_le_self (s.bufOf dt).length 2
    omega
  have hlenX : (X.bufOf dt).length < X.capOf dt := by
    rw [hbufX, hcapX, List.length_drop]
    omega
  have happend : dequeAppend (X.capOf dt) (X.bufOf dt) ⟨dt, p, 0⟩ =
      X.bufOf dt ++ [⟨dt, p, 0⟩] := dequeAppend_of_lt hlenX
  refine ⟨rfl, ?_, ?_, ?_⟩
  · show ((X.addApply dt ⟨dt, p, 0⟩).bufOf dt).length = _
    rw [bufOf_addApply, bufOf_setBuf_self _ _ hdt, happend,
      List.length_append, hbufX, List.length_drop, hfull]
    simp only [List.length_cons, List.length_nil]
    omega
  · show (X.addApply dt ⟨dt, p, 0⟩).spill_attempts = s.spill_attempts + 1
    have h1 : (X.addApply dt ⟨dt, p, 0⟩).spill_attempts =
        (X.setBuf dt (dequeAppend (X.capOf dt) (X.bufOf dt)
          ⟨dt, p, 0⟩)).spill_attempts := rfl
    rw [h1]
    have h2 : ∀ (t : DataBuffer) (d : String) (q : List BufferedData),
        (t.setBuf d q).spill_attempts = t.spill_attempts := by
      intro t d q
      unfold setBuf
      split_ifs <;> rfl
    rw [h2, hX, spill_attempts_spillWrite]
    rfl
  · show (X.addApply dt ⟨dt, p, 0⟩).drop_count = s.drop_count
    have h1 : (X.addApply dt ⟨dt, p, 0⟩).drop_count =
        (X.setBuf dt (dequeAppend (X.capOf dt) (X.bufOf dt)
          ⟨dt, p, 0⟩)).drop_count := rfl
    rw [h1, drop_count_setBuf, hX]
    show (s.spillMark.setBuf dt _).drop_count = s.drop_count
    rw [drop_count_setBuf]
    rfl

theorem add_full_spill_fail {s : DataBuffer} {dt : String} {p : Payload}
    (hdt : knownType dt)
    (hfull : s.max_size ≤ (s.bufOf dt).length) :
    (s.add dt p [false]).2.1 = false ∧
    (s.add dt p [false]).1.drop_count = s.drop_count + 1 ∧
    (s.add dt p [false]).1.spill_attempts = s.spill_attempts + 1 ∧
    (s.add dt p [false]).1.bufOf dt = s.bufOf dt := by
  have hspill := @spillToDisk_mkdir_fail s dt [false] rfl
  simp only [add, if_pos hdt, if_pos hfull, hspill]
  exact ⟨rfl, rfl, rfl, rfl⟩

end DataBuffer

/-! ## Helper lemmas: LIFO recovery (claim C8) -/

namespace DataBuffer

theorem insertByMtimeDesc_perm (f : SpillFile) (l : List SpillFile) :
    (insertByMtimeDesc f l).Perm (f :: l) := by
  induction l with
  | nil => exact .refl _
  | cons g gs ih =>
    unfold insertByMtimeDesc
    split_ifs
    · exact .refl _
    · exact ((ih.cons g).trans (List.Perm.swap f g gs))

theorem sortByMtimeDesc_perm (l : List SpillFile) :
    (sortByMtimeDesc l).Perm l := by
  induction l with
  | nil => exact .refl _
  | cons f fs ih =>
    exact (insertByMtimeDesc_perm f (sortByMtimeDesc fs)).trans (ih.cons f)

theorem insertByMtimeDesc_pairwise {f : SpillFile} {l : List SpillFile}
    (h : l.Pairwise (fun a b => b.mtime ≤ a.mtime)) :
    (insertByMtimeDesc f l).Pairwise (fun a b => b.mtime ≤ a.mtime) := by
  induction l with
  | nil => simp [insertByMtimeDesc]
  | cons g gs ih =>
    rw [List.pairwise_cons] at h
    unfold insertByMtimeDesc
    split_ifs with hgf
    · rw [List.pairwise_cons]
      refine ⟨?_, List.pairwise_cons.2 h⟩
      intro x hx
      rcases List.mem_cons.1 hx with rfl | hx
      · exact hgf.1
      · exact le_trans (h.1 x hx) hgf.1
    · rw [List.pairwise_cons]
      refine ⟨?_, ih h.2⟩
      intro x hx
      rcases List.mem_cons.1 ((insertByMtimeDesc_perm f gs).mem_iff.1 hx)
        with rfl | hx
      · omega
      · exact h.1 x hx

theorem sortByMtimeDesc_pairwise (l : List SpillFile) :
    (sortByMtimeDesc l).Pairwise (fun a b => b.mtime ≤ a.mtime) := by
  induction l with
  | nil => simp [sortByMtimeDesc]
  | cons f fs ih => exact insertByMtimeDesc_pairwise ih

/-- `recover_from_disk` counts a whole file only when every payload of the
file was accepted: a `true` completion flag forces the recovered count to
equal the vector length. -/
theorem addAll_ok_count {s : DataBuffer} {dt : String} {ps : List Payload}
    {env : List Bool} (h : (s.addAll dt ps env).2.2.1 = true) :
    (s.addAll dt ps env).2.1 = ps.length := by
  induction ps generalizing s env with
  | nil => rfl
  | cons p rest ih =>
    simp only [addAll] at h ⊢
    split_ifs at h ⊢ with hok
    simp only [List.length_cons]
    have h' : ((s.add dt p env).1.addAll dt rest (s.add dt p env).2.2).2.2.1
        = true := h
    rw [ih h']

theorem disk_addApply (s : DataBuffer) (dt : String) (it : BufferedData) :
    (s.addApply dt it).disk = s.disk := by
  show (s.setBuf dt _).disk = s.disk
  exact disk_setBuf ..

theorem mem_disk_add {f : SpillFile} {s : DataBuffer} {dt : String}
    {p : Payload} {env : List Bool} (h : f ∈ s.disk) :
    f ∈ (s.add dt p env).1.disk := by
  have hsp : ∀ (t : DataBuffer), f ∈ t.disk → f ∈ (t.spillToDisk dt env).1.disk := by
    intro t ht
    rcases spillToDisk_fst_eq t dt env with he | ⟨n, he⟩ <;> rw [he]
    · exact ht
    · show f ∈ (t.spillMark.setBuf dt _).disk ++ [_]
      rw [disk_setBuf]
      exact List.mem_append_left _ ht
  simp only [add]
  split_ifs
  · rw [disk_addApply]
    exact hsp s h
  · show f ∈ (s.spillToDisk dt env).1.disk
    exact hsp s h
  · rw [disk_addApply]
    exact h
  · exact h

theorem mem_disk_addAll {f : SpillFile} {s : DataBuffer} {dt : String}
    {ps : List Payload} {env : List Bool} (h : f ∈ s.disk) :
    f ∈ (s.addAll dt ps env).1.disk := by
  induction ps generalizing s env with
  | nil => exact h
  | cons p rest ih =>
    simp only [addAll]
    split_ifs
    · exact ih (mem_disk_add h)
    · exact mem_disk_add h

/-- Files whose names the snapshot does not list survive the recovery
loop untouched. -/
theorem recoverLoop_keeps_unlisted {files : List SpillFile} :
    ∀ {s : DataBuffer} {env : List Bool} {f : SpillFile},
      f ∈ s.disk → f.name ∉ files.map SpillFile.name →
      f ∈ (s.recoverLoop files env).1.disk := by
  induction files with
  | nil =>
    intro s env f h1 _
    exact h1
  | cons f0 rest ih =>
    intro s env f h1 h2
    simp only [List.map_cons, List.mem_cons] at h2
    push_neg at h2
    simp only [recoverLoop]
    split_ifs with hok
    · apply ih _ h2.2
      simp only [deleteFile, List.mem_filter, decide_eq_true_eq]
      exact ⟨mem_disk_addAll h1, h2.1⟩
    · exact mem_disk_addAll h1

/-- The recovery loop deletes a file's name only at a step whose `addAll`
call accepted the whole payload vector of the file processed there. -/
theorem recoverLoop_delete_ok {files : List SpillFile} :
    ∀ {s : DataBuffer} {env : List Bool} {f : SpillFile},
      f ∈ s.disk → f ∉ (s.recoverLoop files env).1.disk →
      ∃ g ∈ files, g.name = f.name ∧ ∃ (s₀ : DataBuffer) (env₀ : List Bool),
        (s₀.addAll g.kind g.payloads env₀).2.2.1 = true := by
  induction files with
  | nil =>
    intro s env f h1 h2
    exact absurd h1 h2
  | cons f0 rest ih =>
    intro s env f h1 h2
    simp only [recoverLoop] at h2
    split_ifs at h2 with hok
    · by_cases hname : f.name = f0.name
      · exact ⟨f0, List.mem_cons_self .., hname.symm, s, env, hok⟩
      · have h3 : f ∈ ((s.addAll f0.kind f0.payloads env).1.deleteFile
            f0.name).disk := by
          simp only [deleteFile, List.mem_filter, decide_eq_true_eq]
          exact ⟨mem_disk_addAll h1, hname⟩
        rcases ih h3 h2 with ⟨g, hg, hgn, hex⟩
        exact ⟨g, List.mem_cons_of_mem _ hg, hgn, hex⟩
    · exact absurd (mem_disk_addAll h1) h2

end DataBuffer

/-! ## Claim theorems -/

/-- Claim C1, counterexample: a 400 response does stop the retry loop
(one POST, `requests_failed` rises to 1, circuit stays `Closed`), but the
batch is NOT discarded — `_flush_type` hands it back to the buffer, whose
metrics queue afterwards holds the item again with `attempts = 1`,
contradicting "the batch's items are not returned to the in-memory
queue". -/
theorem claim_C1_counterexample :
    c1res.2.2.1 = 1 ∧ c1res.1.requests_failed = 1 ∧
    c1res.1.circuit_state = .CLOSED ∧
    c1res.2.1.bufOf "metrics" = [⟨"metrics", 7, 1⟩] ∧
    ([⟨"metrics", 7, 1⟩] : List BufferedData) ≠ [] := by decide

/-- Claim C1, amended: when a send attempt for a non-empty batch receives
an HTTP 4xx status other than 429 (and other than 200), the forwarder
stops without retrying that batch — exactly one POST, `requests_made` and
`requests_failed` each advance by one and the circuit-breaker fields are
untouched — but the batch's items ARE returned to the in-memory queue via
`return_failed` rather than discarded. -/
theorem claim_C1 : ∀ (e : DataExporter) (b : DataBuffer) (dt : String)
    (c now : Nat) (rs : List HttpResult),
    1 ≤ e.max_retries → 400 ≤ c → c < 500 → c ≠ 429 →
    (b.get_batch dt e.batch_size).2 ≠ [] →
    DataExporter.flush_type e b dt now (.status c :: rs) =
      ({ e with requests_made := e.requests_made + 1,
                requests_failed := e.requests_failed + 1 },
       (b.get_batch dt e.batch_size).1.return_failed
         (b.get_batch dt e.batch_size).2, 1, rs) :=
  fun _ _ _ _ _ _ h1 h2 h3 h4 h5 =>
    DataExporter.flush_type_client_error h1 h2 h3 h4 h5

/-- Witness for claim C1 at a concrete one-item buffer and a 400 reply. -/
theorem claim_C1_witness :
    DataExporter.flush_type {} c1buf "metrics" 0 [.status 400] =
      ({ ({} : DataExporter) with
          requests_made := ({} : DataExporter).requests_made + 1,
          requests_failed := ({} : DataExporter).requests_failed + 1 },
       (c1buf.get_batch "metrics" ({} : DataExporter).batch_size).1.return_failed
         (c1buf.get_batch "metrics" ({} : DataExporter).batch_size).2, 1, []) :=
  claim_C1 {} c1buf "metrics" 400 0 [] (by decide) (by decide) (by decide)
    (by decide) (by decide)

/-- Claim C2, counterexample: with the circuit `Open(100)` and the current
time 0 < 100, `send_topology` still performs a POST attempt — the topology
send path bypasses the circuit breaker, contradicting "no HTTP POST is
made by any send path of the forwarder (including the topology send
path)". -/
theorem claim_C2_counterexample :
    c2exp.circuit_state = .OPEN ∧ c2exp.circuit_open_until = some 100 ∧
    (0 : Nat) < 100 ∧ c2res.2.2.1 = 1 ∧ (1 : Nat) ≠ 0 := by decide

/-- Claim C2, amended: whenever the circuit state is `Open(until)` and the
current time is before `until`, the flush path (`_flush_all`, which covers
the periodic loop, `flush()` and the shutdown flush) performs no disk
recovery and no HTTP POST and leaves both exporter and buffer unchanged;
the topology send path, however, bypasses the circuit breaker. -/
theorem claim_C2 : ∀ (e : DataExporter) (b : DataBuffer) (now u : Nat)
    (env : List Bool) (resps : List HttpResult),
    e.circuit_state = .OPEN → e.circuit_open_until = some u → now < u →
    DataExporter.flush_all e b now env resps = (e, b, 0) :=
  fun _ _ _ _ _ _ h1 h2 h3 => DataExporter.flush_all_open h1 h2 h3

/-- Witness for claim C2 at the concrete open-circuit exporter. -/
theorem claim_C2_witness :
    DataExporter.flush_all c2exp {} 0 [] [] = (c2exp, {}, 0) :=
  claim_C2 c2exp {} 0 100 [] [] rfl rfl (by decide)

/-- Claim C3, counterexample: out of `HALF_OPEN` (streak freshly reset), a
send that fails three times on connection errors — and therefore fails as
a whole — leaves the circuit in `HALF_OPEN` with `failure_count = 3`,
because `_record_failure` only opens the circuit at the threshold of 5;
a single failure does not transition the circuit to `Open`. -/
theorem claim_C3_counterexample :
    c3exp.circuit_state = .HALF_OPEN ∧
    c3res.2.1 = false ∧
    c3res.1.failure_count = 3 ∧
    c3res.1.circuit_state = .HALF_OPEN ∧
    CircuitState.HALF_OPEN ≠ CircuitState.OPEN := by decide

/-- Claim C3, amended: in the `HALF_OPEN` state a send failure increments
`failure_count`; the circuit transitions to `Open` with deadline
`now + circuit_breaker_timeout` only once the incremented streak reaches
`circuit_breaker_threshold` (default 5, for non-DNS errors), not on any
single failure. -/
theorem claim_C3 : ∀ (e : DataExporter) (now : Nat),
    e.circuit_state = .HALF_OPEN →
    e.circuit_breaker_threshold ≤ e.failure_count + 1 →
    (e.record_failure false now).circuit_state = .OPEN ∧
    (e.record_failure false now).circuit_open_until =
      some (now + e.circuit_breaker_timeout) :=
  fun e now h1 h2 =>
    DataExporter.record_failure_opens (by rw [h1]; decide) h2

/-- Witness for claim C3 at a `HALF_OPEN` exporter with four prior
failures. -/
theorem claim_C3_witness :
    (c3exp4.record_failure false 0).circuit_state = .OPEN ∧
    (c3exp4.record_failure false 0).circuit_open_until =
      some (0 + c3exp4.circuit_breaker_timeout) :=
  claim_C3 c3exp4 0 rfl (by decide)

/-- Claim C4, counterexample: `return_failed` on the two-item batch
`[p1, p2]` re-inserts the survivors in REVERSE list order — the resulting
queue is `[p2+1, p1+1]`, not `[p1+1, p2+1]` — because the loop calls
`appendleft` on each item in turn. -/
theorem claim_C4_counterexample :
    (DataBuffer.return_failed {} c4items).bufOf "metrics" =
      [⟨"metrics", 2, 1⟩, ⟨"metrics", 1, 1⟩] ∧
    ([⟨"metrics", 2, 1⟩, ⟨"metrics", 1, 1⟩] : List BufferedData) ≠
      [⟨"metrics", 1, 1⟩, ⟨"metrics", 2, 1⟩] := by decide

/-- Claim C4, amended: for every batch of a single known kind whose items
all survive the attempt cap and fit the queue's remaining capacity,
`return_failed` re-inserts the items at the head of the kind's queue in
REVERSE of their list order, each with its `attempts` counter exactly one
greater than before the call. -/
theorem claim_C4 : ∀ (dt : String), knownType dt →
    ∀ (items : List BufferedData) (s : DataBuffer),
      (∀ it ∈ items, it.data_type = dt ∧ it.attempts + 1 < 5) →
      (s.bufOf dt).length + items.length ≤ s.capOf dt →
      (s.return_failed items).bufOf dt =
        (items.map bumpAttempts).reverse ++ s.bufOf dt :=
  fun _ hdt => DataBuffer.return_failed_append hdt

/-- Witness for claim C4 at the concrete two-item batch. -/
theorem claim_C4_witness :
    (DataBuffer.return_failed {} c4items).bufOf "metrics" =
      (c4items.map bumpAttempts).reverse ++ ({} : DataBuffer).bufOf "metrics" :=
  claim_C4 "metrics" (Or.inl rfl) c4items {} (by decide) (by decide)

/-- Claim C5: in every reachable state every buffered item's `attempts`
counter is at most 5 (in fact at most 4), and an item whose counter
reaches 6 inside `return_failed` (that is, one passed in with
`attempts + 1 ≥ 6`) is dropped in place — the loop body leaves the buffer
unchanged rather than re-queueing it. -/
theorem claim_C5 :
    (∀ s : DataBuffer, Reach s → ∀ (dt : String),
       ∀ x ∈ s.bufOf dt, x.attempts ≤ 5) ∧
    (∀ (s : DataBuffer) (it : BufferedData), 6 ≤ it.attempts + 1 →
       s.returnFailedOne it = s) := by
  constructor
  · intro s hr dt x hx
    have h := DataBuffer.reach_attempts_le hr x (DataBuffer.mem_allItems_bufOf hx)
    omega
  · intro s it h
    simp only [DataBuffer.returnFailedOne]
    split_ifs with h1 h2 <;> first | omega | rfl

/-- Witness for claim C5: a reachable one-item state and a concrete item
with `attempts = 5` that `return_failed` drops. -/
theorem claim_C5_witness :
    (∀ x ∈ ((DataBuffer.add (DataBuffer.initState 5 [] 0) "metrics" 7
        []).1.bufOf "metrics"), x.attempts ≤ 5) ∧
    DataBuffer.returnFailedOne {} ⟨"metrics", 3, 5⟩ = {} :=
  ⟨claim_C5.1 _ (Reach.add _ _ _ _ (Reach.init 5 [] 0)) "metrics",
   claim_C5.2 {} ⟨"metrics", 3, 5⟩ (by decide)⟩

/-- Claim C6, counterexample: the identity
`total_added = total_flushed + dropped + in_memory + on_disk` fails in a
state reachable with three operations: one `add` (counts 1 added), one
`get_batch` (counts 1 flushed) and one `return_failed` (re-queues the item
WITHOUT decrementing `total_flushed`), after which
`1 ≠ 1 + 0 + 1 + 0`. -/
theorem claim_C6_counterexample :
    c6s3.total_added = 1 ∧ c6s3.total_flushed = 1 ∧ c6s3.drop_count = 0 ∧
    DataBuffer.memCount c6s3 = 1 ∧ DataBuffer.diskCount c6s3 = 0 ∧
    (1 : Nat) ≠ 1 + 0 + 1 + 0 := by decide

/-- Claim C6, amended: the identity `total_added = total_flushed +
drop_count + currently_in_memory + currently_on_disk` (with the global
counters the code keeps — the source has no per-kind stats) holds in every
state reachable from a fresh buffer using only `add` to the
metrics/logs/traces kinds with spills accepted by the environment, and
`get_batch`.  The operations `return_failed` (re-queues without
un-counting the flush), `recover_from_disk` (re-counts recovered items in
`total_added`), failing spills (count a drop for a never-added item) and
topology adds at capacity (silent eviction) each break it. -/
theorem claim_C6 : ∀ s : DataBuffer, ReachAG s →
    s.total_added = s.total_flushed + s.drop_count +
      DataBuffer.memCount s + DataBuffer.diskCount s :=
  fun _ h => (DataBuffer.reachAG_inv h).2.2

/-- Witness for claim C6 at the state reached by one `add`. -/
theorem claim_C6_witness :
    c6s1.total_added = c6s1.total_flushed + c6s1.drop_count +
      DataBuffer.memCount c6s1 + DataBuffer.diskCount c6s1 :=
  claim_C6 c6s1
    (ReachAG.add _ _ _ (ReachAG.init 2 0 (by decide)) (Or.inl rfl))

set_option maxRecDepth 100000

/-- Claim C7, counterexample: `add` against a metrics queue at exactly its
capacity of 4, with the spill succeeding, leaves the queue at length 3 —
capacity minus the spilled half plus the new item — not at `Q_kind = 4`;
and `add` against the topology queue at exactly its capacity of 1000
performs NO spill attempt at all (the fullness check compares against
`max_size = 10000`), silently evicting the oldest item instead. -/
theorem claim_C7_counterexample :
    c7res.2.1 = true ∧
    (c7res.1.bufOf "metrics").length = 3 ∧
    c7s.max_size = 4 ∧ (3 : Nat) ≠ 4 ∧
    c7topRes.2.1 = true ∧
    c7topRes.1.spill_attempts = 0 ∧ (0 : Nat) ≠ 1 ∧
    (c7top.bufOf "topology").length = c7top.capOf "topology" := by decide

/-- Claim C7, amended: calling `add(kind, payload)` for a
metrics/logs/traces kind whose queue holds exactly `max_size` items
(with `max_size ≥ 2`) triggers exactly one spill attempt; if the spill
succeeds the new payload is enqueued and the queue length equals
`max_size - min(max_size / 2, 1000) + 1` (not `max_size`); if the spill
fails, `drop_count` increments by 1 and `add` returns false with the queue
unchanged.  (The topology queue never reaches this code path: its deque
capacity of 1000 is below the `max_size` the fullness check uses.) -/
theorem claim_C7 : ∀ (s : DataBuffer) (dt : String) (p : Payload),
    (dt = "metrics" ∨ dt = "logs" ∨ dt = "traces") →
    2 ≤ s.max_size →
    (s.bufOf dt).length = s.max_size →
    ((s.add dt p [true, true]).2.1 = true ∧
     ((s.add dt p [true, true]).1.bufOf dt).length =
       s.max_size - min (s.max_size / 2) 1000 + 1 ∧
     (s.add dt p [true, true]).1.spill_attempts = s.spill_attempts + 1 ∧
     (s.add dt p [true, true]).1.drop_count = s.drop_count) ∧
    ((s.add dt p [false]).2.1 = false ∧
     (s.add dt p [false]).1.drop_count = s.drop_count + 1 ∧
     (s.add dt p [false]).1.spill_attempts = s.spill_attempts + 1 ∧
     (s.add dt p [false]).1.bufOf dt = s.bufOf dt) := by
  intro s dt p hdt3 hM hfull
  refine ⟨DataBuffer.add_full_spill_ok hdt3 hM hfull,
    DataBuffer.add_full_spill_fail ?_ (le_of_eq hfull.symm)⟩
  rcases hdt3 with h | h | h <;> subst h <;> simp [knownType]

/-- Witness for claim C7 at the concrete four-slot metrics queue. -/
theorem claim_C7_witness :
    ((c7s.add "metrics" 5 [true, true]).2.1 = true ∧
     ((c7s.add "metrics" 5 [true, true]).1.bufOf "metrics").length =
       c7s.max_size - min (c7s.max_size / 2) 1000 + 1 ∧
     (c7s.add "metrics" 5 [true, true]).1.spill_attempts =
       c7s.spill_attempts + 1 ∧
     (c7s.add "metrics" 5 [true, true]).1.drop_count = c7s.drop_count) ∧
    ((c7s.add "metrics" 5 [false]).2.1 = false ∧
     (c7s.add "metrics" 5 [false]).1.drop_count = c7s.drop_count + 1 ∧
     (c7s.add "metrics" 5 [false]).1.spill_attempts =
       c7s.spill_attempts + 1 ∧
     (c7s.add "metrics" 5 [false]).1.bufOf "metrics" =
       c7s.bufOf "metrics") :=
  claim_C7 c7s "metrics" 5 (Or.inl rfl) (by decide) (by decide)

/-- Claim C8: `recover_from_disk(max_files)` iterates over
`recoverSnapshot`, the directory listing sorted newest-mtime-first and
truncated to `max_files` (a permutation of the listing, pairwise
descending in mtime, of length at most `max_files`); a file whose name the
snapshot does not list survives the call; a file on disk (with distinct
file names) that the call deletes had its whole payload vector accepted by
`add` at the moment it was processed — `addAll` reports `ok` only with
`count = payloads.length`. -/
theorem claim_C8 :
    (∀ (s : DataBuffer) (k : Nat), (s.recoverSnapshot k).length ≤ k) ∧
    (∀ (s : DataBuffer) (k : Nat),
       (s.recoverSnapshot k).Pairwise (fun a b => b.mtime ≤ a.mtime)) ∧
    (∀ l : List SpillFile, (DataBuffer.sortByMtimeDesc l).Perm l) ∧
    (∀ (s : DataBuffer) (dt : String) (ps : List Payload) (env : List Bool),
       (s.addAll dt ps env).2.2.1 = true →
       (s.addAll dt ps env).2.1 = ps.length) ∧
    (∀ (s : DataBuffer) (k : Nat) (env : List Bool) (f : SpillFile),
       f ∈ s.disk → f.name ∉ (s.recoverSnapshot k).map SpillFile.name →
       f ∈ (s.recover_from_disk k env).1.disk) ∧
    (∀ (s : DataBuffer) (k : Nat) (env : List Bool) (f : SpillFile),
       f ∈ s.disk → (s.disk.map SpillFile.name).Nodup →
       f ∉ (s.recover_from_disk k env).1.disk →
       ∃ (s₀ : DataBuffer) (env₀ : List Bool),
         (s₀.addAll f.kind f.payloads env₀).2.2.1 = true ∧
         (s₀.addAll f.kind f.payloads env₀).2.1 = f.payloads.length) := by
  refine ⟨?_, ?_, DataBuffer.sortByMtimeDesc_perm,
    fun _ _ _ _ h => DataBuffer.addAll_ok_count h, ?_, ?_⟩
  · intro s k
    rw [DataBuffer.recoverSnapshot, List.length_take]
    exact Nat.min_le_left ..
  · intro s k
    exact (DataBuffer.sortByMtimeDesc_pairwise s.disk).sublist
      (List.take_sublist ..)
  · intro s k env f h1 h2
    simp only [DataBuffer.recover_from_disk]
    exact DataBuffer.recoverLoop_keeps_unlisted h1 h2
  · intro s k env f h1 hnodup h2
    simp only [DataBuffer.recover_from_disk] at h2
    rcases DataBuffer.recoverLoop_delete_ok h1 h2 with ⟨g, hg, hgn, s₀, env₀, hok⟩
    have hgdisk : g ∈ s.disk :=
      (DataBuffer.sortByMtimeDesc_perm s.disk).mem_iff.1
        ((List.take_sublist ..).mem hg)
    have hgf : g = f :=
      List.inj_on_of_nodup_map hnodup hgdisk h1 hgn
    subst hgf
    exact ⟨s₀, env₀, hok, DataBuffer.addAll_ok_count hok⟩

/-- Witness for claim C8 at the three-file recovery scenario: with mtimes
10 < 20 < 30 the processing order is the newest file first, all three
files are recovered (count 3) and deleted, and the payloads arrive
newest-file first. -/
theorem claim_C8_witness :
    DataBuffer.recoverSnapshot c8s 10 = [c8fc, c8fb, c8fa] ∧
    (DataBuffer.recoverSnapshot c8s 10).length ≤ 10 ∧
    (DataBuffer.recoverSnapshot c8s 10).Pairwise
      (fun a b => b.mtime ≤ a.mtime) ∧
    (DataBuffer.recover_from_disk c8s 10 []).2 = 3 ∧
    (DataBuffer.recover_from_disk c8s 10 []).1.disk = [] ∧
    ((DataBuffer.recover_from_disk c8s 10 []).1.bufOf "metrics").map
      (·.payload) = [3, 2, 1] ∧
    c8fa ∈ (DataBuffer.recover_from_disk c8s 1 []).1.disk ∧
    (∃ (s₀ : DataBuffer) (env₀ : List Bool),
       (s₀.addAll c8fa.kind c8fa.payloads env₀).2.2.1 = true ∧
       (s₀.addAll c8fa.kind c8fa.payloads env₀).2.1 =
         c8fa.payloads.length) :=
  ⟨by decide, claim_C8.1 c8s 10, claim_C8.2.1 c8s 10, by decide, by decide,
   by decide,
   claim_C8.2.2.2.2.1 c8s 1 [] c8fa (by decide) (by decide),
   claim_C8.2.2.2.2.2 c8s 10 [] c8fa (by decide) (by decide) (by decide)⟩

/-- Claim C9: every per-kind queue is a bounded deque — capacity
`max_size` (default 10,000) for metrics/logs/traces and 1,000 for topology
— so its length never exceeds its capacity in any reachable state; and
when `return_failed` re-inserts a surviving item at the head of a queue
already at capacity, the item at the queue's tail is silently evicted:
the queue becomes the bumped item followed by all but the last element,
its length stays at capacity, and no counter changes. -/
theorem claim_C9 :
    (∀ s : DataBuffer, Reach s → ∀ dt : String,
        (s.bufOf dt).length ≤ s.capOf dt) ∧
    (({} : DataBuffer).capOf "metrics" = 10000 ∧
     ({} : DataBuffer).capOf "logs" = 10000 ∧
     ({} : DataBuffer).capOf "traces" = 10000 ∧
     ({} : DataBuffer).capOf "topology" = 1000) ∧
    (∀ (s : DataBuffer) (it : BufferedData),
        knownType it.data_type → it.attempts + 1 < 5 →
        1 ≤ s.capOf it.data_type →
        (s.bufOf it.data_type).length = s.capOf it.data_type →
        s.returnFailedOne it =
          s.setBuf it.data_type
            (bumpAttempts it :: (s.bufOf it.data_type).dropLast) ∧
        (s.returnFailedOne it).drop_count = s.drop_count ∧
        (s.returnFailedOne it).total_added = s.total_added ∧
        (s.returnFailedOne it).total_flushed = s.total_flushed ∧
        ((s.returnFailedOne it).bufOf it.data_type).length =
          s.capOf it.data_type) := by
  refine ⟨fun s hr => DataBuffer.reach_lenBound hr, by decide, ?_⟩
  intro s it hk ha hcap hlen
  have he := DataBuffer.returnFailedOne_evict hk ha hcap hlen
  refine ⟨he, ?_, ?_, ?_, ?_⟩
  · rw [he, DataBuffer.drop_count_setBuf]
  · rw [he, DataBuffer.total_added_setBuf]
  · rw [he, DataBuffer.total_flushed_setBuf]
  · rw [he, DataBuffer.bufOf_setBuf_self _ _ hk, List.length_cons,
      List.length_dropLast, hlen]
    omega

/-- Witness for claim C9: the empty reachable state, and the concrete
two-slot queue at capacity where the tail item is evicted. -/
theorem claim_C9_witness :
    (∀ dt : String, ((DataBuffer.initState 10000 [] 0).bufOf dt).length ≤
      (DataBuffer.initState 10000 [] 0).capOf dt) ∧
    (c9full.returnFailedOne ⟨"metrics", 9, 0⟩ =
      c9full.setBuf "metrics"
        (bumpAttempts ⟨"metrics", 9, 0⟩ ::
          (c9full.bufOf "metrics").dropLast) ∧
     (c9full.returnFailedOne ⟨"metrics", 9, 0⟩).drop_count =
       c9full.drop_count ∧
     (c9full.returnFailedOne ⟨"metrics", 9, 0⟩).total_added =
       c9full.total_added ∧
     (c9full.returnFailedOne ⟨"metrics", 9, 0⟩).total_flushed =
       c9full.total_flushed ∧
     ((c9full.returnFailedOne ⟨"metrics", 9, 0⟩).bufOf "metrics").length =
       c9full.capOf "metrics") :=
  ⟨claim_C9.1 _ (Reach.init 10000 [] 0),
   claim_C9.2.2 c9full ⟨"metrics", 9, 0⟩ (by decide) (by decide) (by decide)
     (by decide)⟩

/-- Claim C10: `recover_from_disk` is not atomic per file.  In the
concrete execution below, the first recovery accepts two of the file's
three payloads, then `add` returns false (full queue, spill refused); the
call returns at once (count 2), the file stays on disk, and the accepted
payloads remain in the queue.  A later recovery of the same file succeeds
(count 3, file deleted), re-inserting those payloads, after which payload
`1` — present once in the initial state — exists twice in the buffer
system (memory plus spill files): duplicates. -/
theorem claim_C10 :
    c10r1.2 = 2 ∧ c10file ∈ c10r1.1.disk ∧
    (c10r1.1.bufOf "metrics").map (·.payload) = [1, 2] ∧
    c10r2.2 = 3 ∧ c10file ∉ c10r2.1.disk ∧
    (DataBuffer.systemPayloads c10s0).count 1 = 1 ∧
    (DataBuffer.systemPayloads c10r2.1).count 1 = 2 := by decide
